import Mathlib

/-
Verification of the MCP connection-orchestration core (server registry,
connection manager, aggregator) against its specification.

The TypeScript source is embedded shallowly:

  * a JS `Map` becomes an association list with insertion-order semantics
    (`mapSet` updates an existing key in place, otherwise appends);
  * the aggregator and the connection manager become explicit state records;
  * `async` control flow becomes explicit state passing; the one genuinely
    concurrent scenario (two `getConnection` calls racing on one server) is
    modelled by composing the phases of `createConnection` in the
    interleaving order the event loop produces;
  * the outcome of the external `client.connect` call is an oracle value
    (`ConnectOutcome`), since the wire protocol is outside this core;
  * throws become `Except MCPError`, with the error taxonomy of
    src/core/exceptions.ts.

Ghost fields used only to state properties (never read by the embedded
code paths): `connId` (object identity of a connection), `connectAttempts`
(how many times `client.connect` was invoked), `clock` (logical time
standing in for `Date`), `closedCount` (how many manager teardowns ran).
-/

namespace McpAgent

/-! ### Association-list model of a JS `Map` -/

/-- Lookup, as `Map.get`: the value stored at `k`, if any. -/
def mapGet {α : Type} (m : List (String × α)) (k : String) : Option α :=
  match m with
  | [] => none
  | (k2, v) :: rest => if k2 = k then some v else mapGet rest k

/-- Membership, as `Map.has`. -/
def mapHas {α : Type} (m : List (String × α)) (k : String) : Bool :=
  (mapGet m k).isSome

/-- Insertion, as `Map.set`: a present key keeps its position and gets the
new value, a new key is appended. -/
def mapSet {α : Type} (m : List (String × α)) (k : String) (v : α) :
    List (String × α) :=
  match m with
  | [] => [(k, v)]
  | (k2, v2) :: rest =>
      if k2 = k then (k, v) :: rest else (k2, v2) :: mapSet rest k v

/-- Removal, as `Map.delete`. A JS map holds each key at most once, so
dropping every pair carrying the key is the removal of its entry. -/
def mapDelete {α : Type} (m : List (String × α)) (k : String) :
    List (String × α) :=
  m.filter (fun p => !(p.1 == k))

/-- Iteration over values, as `Array.from(map.values())`. -/
def mapValues {α : Type} (m : List (String × α)) : List α :=
  m.map (fun p => p.2)

/-! ### Error taxonomy (src/core/exceptions.ts)

`genericError` stands for a plain JS `Error` (including errors thrown by
the external protocol client). -/

inductive MCPError where
  | validationError (message : String)
  | configurationError (message : String)
  | connectionError (message : String) (server : String)
  | timeoutError (message : String) (timeoutMs : Nat)
  | genericError (message : String)
deriving Repr, DecidableEq

/-- Rendering of an error by a JS template literal (`Error.toString()` is
"name: message"). -/
def errString : MCPError → String
  | .validationError m => "ValidationError: " ++ m
  | .configurationError m => "ConfigurationError: " ++ m
  | .connectionError m _ => "ConnectionError: " ++ m
  | .timeoutError m _ => "TimeoutError: " ++ m
  | .genericError m => "Error: " ++ m

/-- Whether an error is a `ConfigurationError`. -/
def isConfigurationError : MCPError → Bool
  | .configurationError _ => true
  | _ => false

/-- Whether an error is a `TimeoutError`. -/
def isTimeoutError : MCPError → Bool
  | .timeoutError _ _ => true
  | _ => false

/-! ### Server configuration (src/mcp/types.ts) -/

/-- `ServerConfig`. Optional string fields keep JS truthiness: `none` is
`undefined` and `some ""` is the (falsy) empty string; `strTruthy` below
is the `if (!field)` test. -/
structure MServerConfig where
  name : String
  command : Option String
  args : List String
  env : List (String × String)
  url : Option String
  transport : Option String
deriving Repr, DecidableEq

/-- JS truthiness of an optional string field. -/
def strTruthy : Option String → Bool
  | none => false
  | some s => !(s == "")

/-- How a JS template renders an optional string (missing prints as
"undefined"). -/
def optStr : Option String → String
  | none => "undefined"
  | some s => s

/-- `ServerCapabilities` as declared by a connected server. -/
structure MServerCapabilities where
  tools : Option Bool
  prompts : Option Bool
  resources : Option Bool
  sampling : Option Bool
deriving Repr, DecidableEq

/-- `ServerConnection` (public connection record). `hasSession` models
whether the `session?` handle is set (it is set to the protocol client on
a successful connect); `connId` is ghost object identity. -/
structure MServerConnection where
  name : String
  config : MServerConfig
  connected : Bool
  hasSession : Bool
  capabilities : Option MServerCapabilities
  connId : Nat
deriving Repr, DecidableEq

/-! ### Server registry (src/mcp/serverRegistry.ts) -/

/-- The registry state: static configurations and last-known connections. -/
structure RegistryState where
  servers : List (String × MServerConfig)
  connections : List (String × MServerConnection)
deriving Repr, DecidableEq

/-- The registry as constructed: both maps empty. -/
def emptyRegistry : RegistryState :=
  { servers := [], connections := [] }

/-- `validateConfig` (serverRegistry.ts lines 121-144): defaults a falsy
transport to stdio, then checks the field the transport requires; an
unrecognised transport value falls to the `default` case, which throws a
`ValidationError`. Returns the (possibly mutated) config. -/
def validateConfig (name : String) (config : MServerConfig) :
    Except MCPError MServerConfig :=
  let config :=
    if strTruthy config.transport then config
    else { config with transport := some "stdio" }
  match config.transport with
  | some t =>
      if t = "stdio" then
        if strTruthy config.command then .ok config
        else .error (.validationError
          ("Server '" ++ name ++ "' with stdio transport requires 'command'"))
      else if t = "http" ∨ t = "websocket" then
        if strTruthy config.url then .ok config
        else .error (.validationError
          ("Server '" ++ name ++ "' with " ++ t ++ " transport requires 'url'"))
      else .error (.validationError
        ("Invalid transport type '" ++ t ++ "' for server '" ++ name ++ "'"))
  | none => .error (.validationError
      ("Invalid transport type 'undefined' for server '" ++ name ++ "'"))

/-- `register` (serverRegistry.ts lines 23-39): empty name throws
`ValidationError`, a duplicate name throws `ConfigurationError`, then the
config is validated and stored as `{...config, name}`. -/
def register (reg : RegistryState) (name : String) (config : MServerConfig) :
    Except MCPError RegistryState :=
  if name = "" then .error (.validationError "Server name is required")
  else if mapHas reg.servers name then
    .error (.configurationError ("Server '" ++ name ++ "' is already registered"))
  else
    match validateConfig name config with
    | .error e => .error e
    | .ok config2 =>
        .ok { reg with servers := mapSet reg.servers name { config2 with name := name } }

/-- `get` on the registry. -/
def registryGet (reg : RegistryState) (name : String) : Option MServerConfig :=
  mapGet reg.servers name

/-- `setConnection` on the registry (requires a registered server). -/
def registrySetConnection (reg : RegistryState) (name : String)
    (conn : MServerConnection) : Except MCPError RegistryState :=
  if mapHas reg.servers name then
    .ok { reg with connections := mapSet reg.connections name conn }
  else
    .error (.configurationError
      ("Cannot set connection for unregistered server '" ++ name ++ "'"))

/-! ### Entities exposed by a server (src/mcp/types.ts) -/

/-- A `Tool` as reported by a session (the schema payload is opaque). -/
structure MTool where
  name : String
  description : String
  inputSchema : String
deriving Repr, DecidableEq

/-- A `Prompt` as reported by a session. -/
structure MPrompt where
  name : String
  description : String
  arguments : String
deriving Repr, DecidableEq

/-- A `Resource` as reported by a session. -/
structure MResource where
  uri : String
  name : String
  description : String
  mimeType : String
deriving Repr, DecidableEq

/-- `NamespacedTool`: the spread `...tool` copies the original fields,
then `name` is overridden by the namespaced identifier. `nspace` is the
`namespace` field of the source (a Lean keyword). -/
structure MNamespacedTool where
  name : String
  description : String
  inputSchema : String
  nspace : String
  server_name : String
  original_name : String
  namespaced_tool_name : String
  tool : MTool
deriving Repr, DecidableEq

/-- `NamespacedPrompt`. -/
structure MNamespacedPrompt where
  name : String
  description : String
  arguments : String
  nspace : String
  server_name : String
  original_name : String
  namespaced_prompt_name : String
  prompt : MPrompt
deriving Repr, DecidableEq

/-- `NamespacedResource`. -/
structure MNamespacedResource where
  uri : String
  name : String
  description : String
  mimeType : String
  nspace : String
  server_name : String
  original_uri : String
  namespaced_resource_name : String
  resource : MResource
deriving Repr, DecidableEq

/-- `AggregatedCapabilities`. -/
structure MAggregatedCapabilities where
  tools : List MNamespacedTool
  prompts : List MNamespacedPrompt
  resources : List MNamespacedResource
  servers : List String
deriving Repr, DecidableEq

/-! ### Aggregator state (part of src/mcp/aggregator.ts) -/

/-- The mutable fields of `MCPAggregator`. The promise-chain "locks" of
the source guard no suspension point inside the map updates (the update
loops are synchronous), so they carry no state here. -/
structure AggState where
  initialized : Bool
  connectionPersistence : Bool
  serverNames : List String
  agentName : Option String
  namespacedToolMap : List (String × MNamespacedTool)
  serverToToolMap : List (String × List MNamespacedTool)
  namespacedPromptMap : List (String × MNamespacedPrompt)
  serverToPromptMap : List (String × List MNamespacedPrompt)
  namespacedResourceMap : List (String × MNamespacedResource)
  serverToResourceMap : List (String × List MNamespacedResource)
deriving Repr, DecidableEq

/-- The `MCPAggregator` constructor: all maps empty, not initialized. -/
def freshAggregator (serverNames : List String)
    (connectionPersistence : Bool) (agentName : Option String) : AggState :=
  { initialized := false
    connectionPersistence := connectionPersistence
    serverNames := serverNames
    agentName := agentName
    namespacedToolMap := []
    serverToToolMap := []
    namespacedPromptMap := []
    serverToPromptMap := []
    namespacedResourceMap := []
    serverToResourceMap := [] }

/-- `createNamespacedName` with the `NAMESPACE_SEPARATOR` constant. -/
def createNamespacedName (serverName : String) (originalName : String) : String :=
  serverName ++ "_" ++ originalName

/-- The namespaced tool record built inside `updateToolMaps`. -/
def mkNamespacedTool (serverName : String) (tool : MTool) : MNamespacedTool :=
  { name := createNamespacedName serverName tool.name
    description := tool.description
    inputSchema := tool.inputSchema
    nspace := serverName
    server_name := serverName
    original_name := tool.name
    namespaced_tool_name := createNamespacedName serverName tool.name
    tool := tool }

/-- The namespaced prompt record built inside `updatePromptMaps`. -/
def mkNamespacedPrompt (serverName : String) (prompt : MPrompt) : MNamespacedPrompt :=
  { name := createNamespacedName serverName prompt.name
    description := prompt.description
    arguments := prompt.arguments
    nspace := serverName
    server_name := serverName
    original_name := prompt.name
    namespaced_prompt_name := createNamespacedName serverName prompt.name
    prompt := prompt }

/-- The namespaced resource record built inside `updateResourceMaps`. -/
def mkNamespacedResource (serverName : String) (resource : MResource) : MNamespacedResource :=
  { uri := createNamespacedName serverName resource.uri
    name := resource.name
    description := resource.description
    mimeType := resource.mimeType
    nspace := serverName
    server_name := serverName
    original_uri := resource.uri
    namespaced_resource_name := createNamespacedName serverName resource.uri
    resource := resource }

/-- One iteration of the loop in `updateToolMaps`: insert the namespaced
tool into the shared map and push it onto the local scratch list. -/
def updateToolMapsStep (serverName : String)
    (acc : List (String × MNamespacedTool) × List MNamespacedTool)
    (tool : MTool) :
    List (String × MNamespacedTool) × List MNamespacedTool :=
  let nt := mkNamespacedTool serverName tool
  (mapSet acc.1 nt.namespaced_tool_name nt, acc.2 ++ [nt])

/-- `updateToolMaps` (aggregator.ts lines 359-381): the loop inserts each
namespaced tool into the shared `namespacedToolMap` one by one (the loop
body has no suspension point, so the whole update is atomic for readers),
and the per-server list is swapped into `serverToToolMap` as one step.
Entries of a previous load whose names are not re-reported are left in
the shared map. -/
def updateToolMaps (st : AggState) (serverName : String) (tools : List MTool) :
    AggState :=
  let r := tools.foldl (updateToolMapsStep serverName) (st.namespacedToolMap, [])
  { st with
    namespacedToolMap := r.1
    serverToToolMap := mapSet st.serverToToolMap serverName r.2 }

/-- One iteration of the loop in `updatePromptMaps`. -/
def updatePromptMapsStep (serverName : String)
    (acc : List (String × MNamespacedPrompt) × List MNamespacedPrompt)
    (prompt : MPrompt) :
    List (String × MNamespacedPrompt) × List MNamespacedPrompt :=
  let np := mkNamespacedPrompt serverName prompt
  (mapSet acc.1 np.namespaced_prompt_name np, acc.2 ++ [np])

/-- `updatePromptMaps` (aggregator.ts lines 386-408). -/
def updatePromptMaps (st : AggState) (serverName : String)
    (prompts : List MPrompt) : AggState :=
  let r := prompts.foldl (updatePromptMapsStep serverName) (st.namespacedPromptMap, [])
  { st with
    namespacedPromptMap := r.1
    serverToPromptMap := mapSet st.serverToPromptMap serverName r.2 }

/-- One iteration of the loop in `updateResourceMaps`. -/
def updateResourceMapsStep (serverName : String)
    (acc : List (String × MNamespacedResource) × List MNamespacedResource)
    (resource : MResource) :
    List (String × MNamespacedResource) × List MNamespacedResource :=
  let nr := mkNamespacedResource serverName resource
  (mapSet acc.1 nr.namespaced_resource_name nr, acc.2 ++ [nr])

/-- `updateResourceMaps` (aggregator.ts lines 413-435). -/
def updateResourceMaps (st : AggState) (serverName : String)
    (resources : List MResource) : AggState :=
  let r := resources.foldl (updateResourceMapsStep serverName)
    (st.namespacedResourceMap, [])
  { st with
    namespacedResourceMap := r.1
    serverToResourceMap := mapSet st.serverToResourceMap serverName r.2 }

/-- What one server reports over its session (`listTools`, `listPrompts`,
`listResources` results): the oracle for capability loading. -/
structure ServerListing where
  tools : List MTool
  prompts : List MPrompt
  resources : List MResource

/-- `loadServerCapabilities` (aggregator.ts lines 318-354): list the three
capability classes over the server session and merge each into the maps. -/
def loadServerCapabilities (listing : String → ServerListing)
    (st : AggState) (serverName : String) : AggState :=
  let st := updateToolMaps st serverName (listing serverName).tools
  let st := updatePromptMaps st serverName (listing serverName).prompts
  updateResourceMaps st serverName (listing serverName).resources

/-- `loadServers` (aggregator.ts lines 307-313): load every configured
server; the scheduler resolves `Promise.all` in list order here. -/
def loadServers (listing : String → ServerListing) (st : AggState) : AggState :=
  st.serverNames.foldl (loadServerCapabilities listing) st

/-- `initialize` (aggregator.ts lines 81-103) restricted to its effect on
the aggregator state: returns unchanged when already initialized and not
forced, otherwise loads every server and sets the flag. Acquiring the
shared connection manager is modelled separately (`acquireManager`), as
it only touches context state. -/
def initializeAggregator (st : AggState) (listing : String → ServerListing)
    (force : Bool) : AggState :=
  if st.initialized ∧ ¬force then st
  else { loadServers listing st with initialized := true }

/-- `close` (aggregator.ts lines 108-131) restricted to the aggregator
state: clear every map, reset `initialized`. Releasing the shared
connection manager is modelled separately (`releaseManager`). -/
def closeAggregator (st : AggState) : AggState :=
  { st with
    namespacedToolMap := []
    serverToToolMap := []
    namespacedPromptMap := []
    serverToPromptMap := []
    namespacedResourceMap := []
    serverToResourceMap := []
    initialized := false }

/-- `getCapabilities` (aggregator.ts lines 148-155): a snapshot of the
current maps and the configured server names; no initialization check,
no failure path. -/
def getCapabilities (st : AggState) : MAggregatedCapabilities :=
  { tools := mapValues st.namespacedToolMap
    prompts := mapValues st.namespacedPromptMap
    resources := mapValues st.namespacedResourceMap
    servers := st.serverNames }

/-- The plain `Error` thrown by `ensureInitialized`. -/
def notInitializedAggError : MCPError :=
  .genericError "MCP Aggregator not initialized. Call initialize() first."

/-- An entry of the `listTools` result. -/
structure ToolListEntry where
  name : String
  description : String
  inputSchema : String
deriving Repr, DecidableEq

/-- `listTools` (aggregator.ts lines 160-170). -/
def listTools (st : AggState) : Except MCPError (List ToolListEntry) :=
  if st.initialized then
    .ok ((mapValues st.namespacedToolMap).map
      (fun nt => ⟨nt.namespaced_tool_name, nt.tool.description, nt.tool.inputSchema⟩))
  else .error notInitializedAggError

/-- An entry of the `listPrompts` result. -/
structure PromptListEntry where
  name : String
  description : String
  arguments : String
deriving Repr, DecidableEq

/-- `listPrompts` (aggregator.ts lines 210-220). -/
def listPrompts (st : AggState) : Except MCPError (List PromptListEntry) :=
  if st.initialized then
    .ok ((mapValues st.namespacedPromptMap).map
      (fun np => ⟨np.namespaced_prompt_name, np.prompt.description, np.prompt.arguments⟩))
  else .error notInitializedAggError

/-- An entry of the `listResources` result. -/
structure ResourceListEntry where
  uri : String
  name : String
  description : String
  mimeType : String
deriving Repr, DecidableEq

/-- `listResources` (aggregator.ts lines 259-270). -/
def listResources (st : AggState) : Except MCPError (List ResourceListEntry) :=
  if st.initialized then
    .ok ((mapValues st.namespacedResourceMap).map
      (fun nr => ⟨nr.namespaced_resource_name, nr.resource.name,
        nr.resource.description, nr.resource.mimeType⟩))
  else .error notInitializedAggError

/-- Externally visible steps `callTool` takes against connections and
sessions, in order: the trace the theorems constrain. -/
inductive AggAction where
  | getManagedConnection (server : String)
  | sessionCallTool (server : String) (originalName : String)
  | ephemeralConnect (server : String)
  | clientCallTool (server : String) (originalName : String)
deriving Repr, DecidableEq

/-- How `callTool` resolves, up to the session round-trip: either an error
thrown before any transport is touched, or the invocation it performs
(carrying the exact arguments object it forwards). What the session then
returns is outside this model; a session failure is re-thrown by the
source as a `ConnectionError` tagged with the server name. -/
inductive CallOutcome (α : Type) where
  | notInitializedError
  | validationFailure (message : String)
  | invoked (server : String) (originalName : String) (args : α) (persistent : Bool)
deriving Repr, DecidableEq

/-- `callTool` (aggregator.ts lines 175-205): `ensureInitialized`, then
the namespaced-map lookup (an unknown name throws `ValidationError`
before any connection is touched), then the call on the owning server
with the original name and the unmodified `args`. The aggregator state is
returned to make explicit that the method never mutates it. -/
def callTool {α : Type} (st : AggState) (name : String) (args : α) :
    CallOutcome α × AggState × List AggAction :=
  if st.initialized then
    match mapGet st.namespacedToolMap name with
    | none => (.validationFailure ("Tool '" ++ name ++ "' not found"), st, [])
    | some nt =>
        if st.connectionPersistence then
          (.invoked nt.server_name nt.original_name args true, st,
            [.getManagedConnection nt.server_name,
             .sessionCallTool nt.server_name nt.original_name])
        else
          (.invoked nt.server_name nt.original_name args false, st,
            [.ephemeralConnect nt.server_name,
             .clientCallTool nt.server_name nt.original_name])
  else (.notInitializedError, st, [])

/-! ### Connection manager (src/mcp/connectionManager.ts) -/

/-- A transport object, by kind, as `createTransport` builds it. -/
inductive MTransport where
  | stdio (command : String) (args : List String) (env : List (String × String))
  | websocket (url : String)
  | sse (url : String)
deriving Repr, DecidableEq

/-- `ConnectionState` (connectionManager.ts lines 626-634). `hasClient`
models the `client` field, constructed eagerly with every state;
`inFlight` models the presence of `initPromise`; `lastAttempt` is a
logical tick standing in for the `Date`. -/
structure MConnectionState where
  connection : MServerConnection
  hasClient : Bool
  transport : Option MTransport
  inFlight : Bool
  error : Option MCPError
  lastAttempt : Option Nat
  retryCount : Nat
deriving Repr, DecidableEq

/-- `ConnectionManagerOptions`, every field optional. -/
structure ManagerOptions where
  maxRetries : Option Nat
  retryDelay : Option Nat
  connectionTimeout : Option Nat
  healthCheckInterval : Option Nat
deriving Repr, DecidableEq

/-- The `MCPConnectionManager` state. `nextConnId`, `clock` and
`connectAttempts` are ghost instrumentation (object identity, time, the
number of `client.connect` calls). -/
structure CMState where
  registry : RegistryState
  connections : List (String × MConnectionState)
  maxRetries : Nat
  retryDelay : Nat
  connectionTimeout : Nat
  healthCheckInterval : Nat
  initialized : Bool
  closing : Bool
  nextConnId : Nat
  clock : Nat
  connectAttempts : Nat
deriving Repr, DecidableEq

/-- The `MCPConnectionManager` constructor with its option defaults. -/
def mkConnectionManager (registry : RegistryState) (options : ManagerOptions) :
    CMState :=
  { registry := registry
    connections := []
    maxRetries := options.maxRetries.getD 3
    retryDelay := options.retryDelay.getD 1000
    connectionTimeout := options.connectionTimeout.getD 30000
    healthCheckInterval := options.healthCheckInterval.getD 30000
    initialized := false
    closing := false
    nextConnId := 0
    clock := 0
    connectAttempts := 0 }

/-- `initialize` of the manager (connectionManager.ts lines 677-691):
idempotent; starting the health-check timer has no effect on this state. -/
def initializeManager (cm : CMState) : CMState :=
  if cm.initialized then cm else { cm with initialized := true }

/-- `isConnectionHealthy` (connectionManager.ts lines 936-941), exactly
the four checks of the source: the `connected` flag, no stored error, the
`client` field, and the `session` handle of the public record. -/
def isConnectionHealthy (state : MConnectionState) : Bool :=
  state.connection.connected && state.error.isNone &&
    state.hasClient && state.connection.hasSession

/-- Modelled from the spec: the health predicate as §3 words it — the
`connected` flag, no stored error, and non-null session and transport
handles. Stated for comparison with `isConnectionHealthy` (claim C8). -/
def healthyPerSpec (state : MConnectionState) : Bool :=
  state.connection.connected && state.error.isNone &&
    state.connection.hasSession && state.transport.isSome

/-- `createTransport` of the manager (connectionManager.ts lines 821-852):
stdio requires a truthy `command` (the spawn environment is the process
environment overlaid with `env`; only the overlay is carried here),
websocket and http require a truthy `url`; anything else throws. -/
def createTransport (config : MServerConfig) : Except MCPError MTransport :=
  match config.transport with
  | some t =>
      if t = "stdio" then
        if strTruthy config.command then
          .ok (.stdio (optStr config.command) config.args config.env)
        else .error (.configurationError "Stdio transport requires command")
      else if t = "websocket" then
        if strTruthy config.url then .ok (.websocket (optStr config.url))
        else .error (.configurationError "WebSocket transport requires URL")
      else if t = "http" then
        if strTruthy config.url then .ok (.sse (optStr config.url))
        else .error (.configurationError "HTTP transport requires URL")
      else .error (.configurationError ("Unsupported transport: " ++ t))
  | none => .error (.configurationError "Unsupported transport: undefined")

/-- The oracle for one `client.connect` call: it succeeds (and
`getServerCapabilities` then reports `caps`), rejects with a message, or
outlives the configured timeout so the racing timer fires first. -/
inductive ConnectOutcome where
  | ok (caps : Option MServerCapabilities)
  | fail (message : String)
  | timeout
deriving Repr, DecidableEq

/-- The capabilities the session reports once connected (what
`client.getServerCapabilities()` returns for each connect outcome). -/
def connectCaps : ConnectOutcome → Option MServerCapabilities
  | .ok caps => caps
  | .fail _ => none
  | .timeout => none

/-- `withTimeout` (connectionManager.ts lines 993-1003): a race of the
guarded promise against a timer that rejects with a `TimeoutError`
carrying the message and the timeout value. -/
def withTimeout (r : ConnectOutcome) (timeoutMs : Nat) (errorMessage : String) :
    Except MCPError Unit :=
  match r with
  | .ok _ => .ok ()
  | .fail message => .error (.genericError message)
  | .timeout => .error (.timeoutError errorMessage timeoutMs)

/-- The synchronous prefix of `createConnection` (connectionManager.ts
lines 732-754): build the fresh `ConnectionState` (a new client, a new
connection record, the retry count inherited from any existing state),
store it, and mark the init promise as in flight. -/
def createConnectionSetup (cm : CMState) (name : String)
    (config : MServerConfig) : CMState :=
  let rc := match mapGet cm.connections name with
    | some existing => existing.retryCount
    | none => 0
  let state : MConnectionState :=
    { connection :=
        { name := name
          config := config
          connected := false
          hasSession := false
          capabilities := none
          connId := cm.nextConnId }
      hasClient := true
      transport := none
      inFlight := true
      error := none
      lastAttempt := none
      retryCount := rc }
  { cm with
    connections := mapSet cm.connections name state
    nextConnId := cm.nextConnId + 1 }

/-- The catch block of `initializeConnection` (lines 805-815): store the
error, stamp the attempt, bump the retry count, mark disconnected, and
throw a `ConnectionError` tagged with the server name whose message
embeds the original error. -/
def connectFailure (cm : CMState) (name : String) (state : MConnectionState)
    (e : MCPError) : Except MCPError Unit × CMState :=
  let conn := { state.connection with connected := false }
  let state2 :=
    { state with
      error := some e
      lastAttempt := some cm.clock
      retryCount := state.retryCount + 1
      connection := conn }
  (.error (.connectionError
      ("Failed to connect to server '" ++ name ++ "': " ++ errString e) name),
    { cm with
      connections := mapSet cm.connections name state2
      clock := cm.clock + 1 })

/-- The body of `initializeConnection` (lines 773-816) for the state
stored under `name`: create the transport, connect under the timeout
race (outcome `r`), and on success publish the session, clear the error,
reset the retry count and write the connection into the registry. A
throw from `createTransport` lands in the same catch block as a connect
failure. `connectAttempts` counts the `client.connect` calls. -/
def initializeConnectionRun (cm : CMState) (name : String) (r : ConnectOutcome) :
    Except MCPError Unit × CMState :=
  match mapGet cm.connections name with
  | none => (.error (.genericError "connection state missing"), cm)
  | some state =>
      match createTransport state.connection.config with
      | .error e => connectFailure cm name state e
      | .ok tr =>
          let state := { state with transport := some tr }
          let cm :=
            { cm with
              connections := mapSet cm.connections name state
              connectAttempts := cm.connectAttempts + 1 }
          match withTimeout r cm.connectionTimeout
              ("Connection to server '" ++ name ++ "' timed out") with
          | .error e => connectFailure cm name state e
          | .ok _ =>
              let caps := connectCaps r
              let conn :=
                { state.connection with
                  hasSession := true
                  capabilities := caps
                  connected := true }
              let state2 :=
                { state with
                  connection := conn
                  error := none
                  retryCount := 0
                  lastAttempt := some cm.clock }
              (.ok (),
                { cm with
                  connections := mapSet cm.connections name state2
                  clock := cm.clock + 1
                  registry :=
                    { cm.registry with
                      connections := mapSet cm.registry.connections name conn } })

/-- Drop the in-flight mark of the state stored under `name` (the
`finally` clause deleting `initPromise`). -/
def clearInFlight (cm : CMState) (name : String) : CMState :=
  match mapGet cm.connections name with
  | none => cm
  | some state =>
      { cm with
        connections := mapSet cm.connections name { state with inFlight := false } }

/-- The resumption of `createConnection` once its init promise settles
(lines 756-767): on success return the connection record; on failure
evict the cached state when the retry count has reached `maxRetries`,
then rethrow; either way the in-flight mark is dropped. -/
def createConnectionFinish (cm : CMState) (name : String)
    (res : Except MCPError Unit) : Except MCPError MServerConnection × CMState :=
  let cm := clearInFlight cm name
  match res, mapGet cm.connections name with
  | .ok _, some state => (.ok state.connection, cm)
  | .error e, some state =>
      if cm.maxRetries ≤ state.retryCount then
        (.error e, { cm with connections := mapDelete cm.connections name })
      else (.error e, cm)
  | .ok _, none => (.error (.genericError "connection state missing"), cm)
  | .error e, none => (.error e, cm)

/-- A full, uninterleaved run of `createConnection` past the in-flight
check: setup, the init promise, its resumption. -/
def createConnectionMain (cm : CMState) (name : String)
    (config : MServerConfig) (r : ConnectOutcome) :
    Except MCPError MServerConnection × CMState :=
  let cm := createConnectionSetup cm name config
  let run := initializeConnectionRun cm name r
  createConnectionFinish run.2 name run.1

/-- `createConnection` (lines 720-768) as one sequential call: when an
earlier attempt is in flight its promise is awaited and, if it left the
state healthy, that connection is reused (in a sequential run such a
promise has already settled, so awaiting it is a no-op; the genuinely
concurrent interleaving is `concurrentGetConnection`). -/
def createConnection (cm : CMState) (name : String) (config : MServerConfig)
    (r : ConnectOutcome) : Except MCPError MServerConnection × CMState :=
  match mapGet cm.connections name with
  | some existing =>
      if existing.inFlight && isConnectionHealthy existing then
        (.ok existing.connection, cm)
      else createConnectionMain cm name config r
  | none => createConnectionMain cm name config r

/-- `getConnection` past the cache check (lines 707-714): resolve the
config from the registry, then create or reconnect. -/
def getConnectionCreate (cm : CMState) (name : String) (r : ConnectOutcome) :
    Except MCPError MServerConnection × CMState :=
  match registryGet cm.registry name with
  | none =>
      (.error (.configurationError ("Server '" ++ name ++ "' not found in registry")), cm)
  | some config => createConnection cm name config r

/-- `getConnection` (lines 696-715): require an initialized manager,
return a cached healthy connection, otherwise create one. -/
def getConnection (cm : CMState) (name : String) (r : ConnectOutcome) :
    Except MCPError MServerConnection × CMState :=
  if cm.initialized then
    match mapGet cm.connections name with
    | some state =>
        if isConnectionHealthy state then (.ok state.connection, cm)
        else getConnectionCreate cm name r
    | none => getConnectionCreate cm name r
  else (.error (.genericError "Connection manager not initialized"), cm)

/-- `closeConnection` (lines 857-879): best-effort close of the session
and transport (their errors are swallowed), then the cached state is
removed unconditionally. -/
def closeConnection (cm : CMState) (name : String) : CMState :=
  match mapGet cm.connections name with
  | none => cm
  | some _ => { cm with connections := mapDelete cm.connections name }

/-- `close` of the manager (lines 884-908): guarded by the closing flag,
closes every tracked connection, clears the map, resets the flags. -/
def closeManager (cm : CMState) : CMState :=
  if cm.closing then cm
  else { cm with connections := [], initialized := false, closing := false }

/-- `getActiveConnections` (lines 921-931). -/
def getActiveConnections (cm : CMState) : List MServerConnection :=
  (cm.connections.filter (fun p => isConnectionHealthy p.2)).map
    (fun p => p.2.connection)

/-- The interleaved core of `concurrentGetConnection`, from the point
both callers have passed the cache check: caller A runs the setup and
suspends at the connect; caller B, inside its own `createConnection`,
sees the in-flight init promise and awaits it; the connect settles with
outcome `r`; A resumes and returns; B resumes from its await — a
rejection is rethrown out of B, a healthy state hands B the same
connection record, and only an unhealthy settled state sends B into an
attempt of its own (outcome `r2`). -/
def concurrentCreate (cm : CMState) (name : String) (r r2 : ConnectOutcome) :
    Except MCPError MServerConnection × Except MCPError MServerConnection × CMState :=
  match registryGet cm.registry name with
  | none =>
      (.error (.configurationError ("Server '" ++ name ++ "' not found in registry")),
        .error (.configurationError ("Server '" ++ name ++ "' not found in registry")),
        cm)
  | some config =>
      let cm1 := createConnectionSetup cm name config
      let run := initializeConnectionRun cm1 name r
      let finA := createConnectionFinish run.2 name run.1
      match run.1 with
      | .error e => (finA.1, .error e, finA.2)
      | .ok _ =>
          match mapGet finA.2.connections name with
          | some st =>
              if isConnectionHealthy st then (finA.1, .ok st.connection, finA.2)
              else
                let resB := createConnectionMain finA.2 name config r2
                (finA.1, resB.1, resB.2)
          | none =>
              let resB := createConnectionMain finA.2 name config r2
              (finA.1, resB.1, resB.2)

/-- Two `getConnection` calls for the same server, the second issued
before the first connect resolves (claim C4). A cached healthy entry is
handed to both callers; otherwise the calls interleave as in
`concurrentCreate`. Returns (result of A, result of B, final state). -/
def concurrentGetConnection (cm : CMState) (name : String)
    (r : ConnectOutcome) (r2 : ConnectOutcome) :
    Except MCPError MServerConnection × Except MCPError MServerConnection × CMState :=
  if cm.initialized then
    match mapGet cm.connections name with
    | some state =>
        if isConnectionHealthy state then
          (.ok state.connection, .ok state.connection, cm)
        else concurrentCreate cm name r r2
    | none => concurrentCreate cm name r r2
  else
    (.error (.genericError "Connection manager not initialized"),
      .error (.genericError "Connection manager not initialized"), cm)

/-- The state `createConnectionSetup` stores: a fresh connection record
and client, no transport yet, the init promise in flight, the retry
count carried over. -/
def connectingState (name : String) (config : MServerConfig) (cid rc : Nat) :
    MConnectionState :=
  { connection :=
      { name := name, config := config, connected := false,
        hasSession := false, capabilities := none, connId := cid }
    hasClient := true
    transport := none
    inFlight := true
    error := none
    lastAttempt := none
    retryCount := rc }

/-- The state a failed connect attempt leaves behind, once the catch
block ran and the init promise was cleared. -/
def failedState (name : String) (config : MServerConfig) (tr : MTransport)
    (e : MCPError) (cid clockv rc : Nat) : MConnectionState :=
  { connection :=
      { name := name, config := config, connected := false,
        hasSession := false, capabilities := none, connId := cid }
    hasClient := true
    transport := some tr
    inFlight := false
    error := some e
    lastAttempt := some clockv
    retryCount := rc }

/-- The state a successful connect attempt leaves behind. -/
def connectedState (name : String) (config : MServerConfig) (tr : MTransport)
    (caps : Option MServerCapabilities) (cid clockv : Nat) : MConnectionState :=
  { connection :=
      { name := name, config := config, connected := true,
        hasSession := true, capabilities := caps, connId := cid }
    hasClient := true
    transport := some tr
    inFlight := false
    error := none
    lastAttempt := some clockv
    retryCount := 0 }

/-- `n` consecutive `getConnection` calls whose connect attempts all
reject with `message` (claim C3). -/
def failedAttempts (cm : CMState) (name : String) (message : String) :
    Nat → CMState
  | 0 => cm
  | n + 1 => failedAttempts (getConnection cm name (.fail message)).2 name message n

/-! ### Context-shared manager and reference counting
(aggregator.ts lines 459-509) -/

/-- The `_mcp_connection_manager*` fields the aggregator keeps on its
owning context. `closedCount` is ghost: how many times a shared manager
was actually torn down. The ref count is a JS number mutated with `+= 1`
and `-= 1`, hence `Int`. -/
structure CtxState where
  refCount : Int
  manager : Option CMState
  closedCount : Nat
deriving Repr, DecidableEq

/-- A context before any aggregator attached to it. -/
def freshContext : CtxState :=
  { refCount := 0, manager := none, closedCount := 0 }

/-- `initializePersistentConnections` (lines 459-491): under the context
lock, bump the reference count, then reuse the context-held manager or
lazily create and initialize one and publish it on the context. Returns
the new context and the manager instance handed to this aggregator. -/
def acquireManager (ctx : CtxState) (registry : RegistryState) :
    CtxState × CMState :=
  let ctx := { ctx with refCount := ctx.refCount + 1 }
  match ctx.manager with
  | some mgr => (ctx, mgr)
  | none =>
      let mgr := initializeManager (mkConnectionManager registry ⟨none, none, none, none⟩)
      ({ ctx with manager := some mgr }, mgr)

/-- `cleanupPersistentConnections` (lines 496-509): under the context
lock, decrement the reference count; only when it reaches zero is the
manager closed (tearing down every tracked connection) and deleted from
the context. -/
def releaseManager (ctx : CtxState) : CtxState :=
  let ctx := { ctx with refCount := ctx.refCount - 1 }
  if ctx.refCount ≤ 0 then
    { ctx with
      manager := none
      closedCount := ctx.closedCount + 1 }
  else ctx

/-! ### Reachable manager states (for claim C8) -/

/-- The shape every tracked `ConnectionState` keeps: the client object is
always constructed with the state, and a state marked connected came out
of a successful `initializeConnection`, which set the transport and the
session and cleared the error. -/
def cmStateWellFormed (state : MConnectionState) : Prop :=
  state.hasClient = true ∧
    (state.connection.connected = true →
      state.transport.isSome = true ∧
      state.connection.hasSession = true ∧
      state.error = none)

/-- The manager invariant: every tracked state is well formed. -/
def cmInv (cm : CMState) : Prop :=
  ∀ p ∈ cm.connections, cmStateWellFormed p.2

/-- The manager states the modelled operations can produce, starting from
a freshly constructed manager. -/
inductive ReachableCM : CMState → Prop where
  | mk (registry : RegistryState) (options : ManagerOptions) :
      ReachableCM (mkConnectionManager registry options)
  | startup {cm : CMState} :
      ReachableCM cm → ReachableCM (initializeManager cm)
  | step {cm : CMState} (name : String) (r : ConnectOutcome) :
      ReachableCM cm → ReachableCM (getConnection cm name r).2
  | closeOne {cm : CMState} (name : String) :
      ReachableCM cm → ReachableCM (closeConnection cm name)
  | closeAll {cm : CMState} :
      ReachableCM cm → ReachableCM (closeManager cm)
  | race {cm : CMState} (name : String) (r r2 : ConnectOutcome) :
      ReachableCM cm → ReachableCM (concurrentGetConnection cm name r r2).2.2

/-! ### Concrete instances used by counterexamples and witnesses -/

/-- A valid stdio configuration for a server named "s". -/
def demoConfig : MServerConfig :=
  { name := "s", command := some "node", args := [], env := [],
    url := none, transport := some "stdio" }

/-- A registry holding just the server "s". -/
def demoRegistry : RegistryState :=
  { servers := [("s", demoConfig)], connections := [] }

/-- An initialized connection manager over `demoRegistry` with
`maxRetries := 2`. -/
def demoManager : CMState :=
  initializeManager (mkConnectionManager demoRegistry ⟨some 2, none, none, none⟩)

/-- Two servers whose namespaced identifiers collide: server "a_b"
exposes tool "c" and server "a" exposes tool "b_c"; both namespace to
"a_b_c". -/
def collisionListing : String → ServerListing := fun s =>
  if s = "a_b" then ⟨[⟨"c", "", ""⟩], [], []⟩
  else if s = "a" then ⟨[⟨"b_c", "", ""⟩], [], []⟩
  else ⟨[], [], []⟩

/-- An aggregator over the two colliding servers after a successful
initialize. -/
def collisionAggregator : AggState :=
  initializeAggregator (freshAggregator ["a_b", "a"] true none) collisionListing false

/-! ## Lemmas about the map model -/

theorem mapGet_set_self {α : Type} (m : List (String × α)) (k : String) (v : α) :
    mapGet (mapSet m k v) k = some v := by
  induction m with
  | nil => simp [mapSet, mapGet]
  | cons p rest ih =>
      obtain ⟨a, b⟩ := p
      by_cases h : a = k
      · simp [mapSet, mapGet, h]
      · simp [mapSet, mapGet, h, ih]

theorem mapGet_set_ne {α : Type} (m : List (String × α)) (k key : String) (v : α)
    (h : key ≠ k) : mapGet (mapSet m k v) key = mapGet m key := by
  have h2 : ¬(k = key) := fun hk => h hk.symm
  induction m with
  | nil => simp [mapSet, mapGet, h2]
  | cons p rest ih =>
      obtain ⟨a, b⟩ := p
      by_cases hp : a = k
      · subst hp
        simp [mapSet, mapGet, h2]
      · by_cases hq : a = key
        · simp [mapSet, mapGet, hp, hq, h]
        · simp [mapSet, mapGet, hp, hq, ih]

theorem mapGet_set_inv {α : Type} {m : List (String × α)} {k key : String}
    {v w : α} (h : mapGet (mapSet m k v) key = some w) :
    (key = k ∧ w = v) ∨ mapGet m key = some w := by
  by_cases hk : key = k
  · subst hk
    rw [mapGet_set_self] at h
    exact Or.inl ⟨rfl, (Option.some_inj.mp h).symm⟩
  · rw [mapGet_set_ne m k key v hk] at h
    exact Or.inr h

theorem mapGet_set_isSome {α : Type} (m : List (String × α)) (k key : String)
    (v : α) (h : (mapGet m key).isSome = true) :
    (mapGet (mapSet m k v) key).isSome = true := by
  by_cases hk : key = k
  · subst hk
    rw [mapGet_set_self]
    rfl
  · rw [mapGet_set_ne m k key v hk]
    exact h

theorem mem_mapSet {α : Type} {m : List (String × α)} {k : String} {v : α}
    {p : String × α} (h : p ∈ mapSet m k v) : p ∈ m ∨ p = (k, v) := by
  induction m with
  | nil =>
      simp only [mapSet, List.mem_singleton] at h
      exact Or.inr h
  | cons q rest ih =>
      obtain ⟨a, b⟩ := q
      by_cases hq : a = k
      · simp only [mapSet, if_pos hq, List.mem_cons] at h
        rcases h with h | h
        · exact Or.inr h
        · exact Or.inl (List.mem_cons_of_mem _ h)
      · simp only [mapSet, if_neg hq, List.mem_cons] at h
        rcases h with h | h
        · exact Or.inl (List.mem_cons.mpr (Or.inl h))
        · rcases ih h with h2 | h2
          · exact Or.inl (List.mem_cons_of_mem _ h2)
          · exact Or.inr h2

theorem mem_mapDelete {α : Type} {m : List (String × α)} {k : String}
    {p : String × α} (h : p ∈ mapDelete m k) : p ∈ m :=
  List.mem_of_mem_filter h

theorem mapGet_delete_self {α : Type} (m : List (String × α)) (k : String) :
    mapGet (mapDelete m k) k = none := by
  induction m with
  | nil => rfl
  | cons p rest ih =>
      obtain ⟨a, b⟩ := p
      by_cases hp : a = k
      · simpa [mapDelete, hp] using ih
      · have : (a == k) = false := by
          cases h : (a == k) with
          | false => rfl
          | true => exact absurd (by simpa using h) hp
        simpa [mapDelete, mapGet, this, hp] using ih

theorem mapGet_mem {α : Type} {m : List (String × α)} {k : String} {v : α}
    (h : mapGet m k = some v) : (k, v) ∈ m := by
  induction m with
  | nil => simp [mapGet] at h
  | cons p rest ih =>
      obtain ⟨a, b⟩ := p
      by_cases hp : a = k
      · subst hp
        simp only [mapGet, if_pos rfl] at h
        obtain rfl := Option.some_inj.mp h
        exact List.mem_cons.mpr (Or.inl rfl)
      · simp only [mapGet, if_neg hp] at h
        exact List.mem_cons_of_mem _ (ih h)

/-! ## Lemmas about the aggregator's capability maps -/

theorem toolFold_scratch (serverName : String) (tools : List MTool)
    (m : List (String × MNamespacedTool)) (acc : List MNamespacedTool) :
    (tools.foldl (updateToolMapsStep serverName) (m, acc)).2
      = acc ++ tools.map (mkNamespacedTool serverName) := by
  induction tools generalizing m acc with
  | nil => simp
  | cons t ts ih =>
      simp only [List.foldl_cons, List.map_cons]
      rw [updateToolMapsStep, ih]
      simp

theorem toolFold_get_inv (serverName : String) (tools : List MTool)
    (m : List (String × MNamespacedTool)) (acc : List MNamespacedTool)
    {key : String} {nt : MNamespacedTool}
    (h : mapGet (tools.foldl (updateToolMapsStep serverName) (m, acc)).1 key = some nt) :
    (∃ t ∈ tools, nt = mkNamespacedTool serverName t ∧
      key = createNamespacedName serverName t.name) ∨
      mapGet m key = some nt := by
  induction tools generalizing m acc with
  | nil => exact Or.inr h
  | cons t ts ih =>
      simp only [List.foldl_cons] at h
      rw [updateToolMapsStep] at h
      rcases ih _ _ h with ⟨t2, ht2, h1, h2⟩ | h2
      · exact Or.inl ⟨t2, List.mem_cons_of_mem t ht2, h1, h2⟩
      · rcases mapGet_set_inv h2 with ⟨hk, hv⟩ | h3
        · exact Or.inl ⟨t, List.mem_cons.mpr (Or.inl rfl), hv, hk⟩
        · exact Or.inr h3

theorem toolFold_get_isSome_mono (serverName : String) (tools : List MTool)
    (m : List (String × MNamespacedTool)) (acc : List MNamespacedTool)
    (key : String) (h : (mapGet m key).isSome = true) :
    (mapGet (tools.foldl (updateToolMapsStep serverName) (m, acc)).1 key).isSome = true := by
  induction tools generalizing m acc with
  | nil => exact h
  | cons t ts ih =>
      simp only [List.foldl_cons]
      rw [updateToolMapsStep]
      exact ih _ _ (mapGet_set_isSome _ _ _ _ h)

theorem toolFold_get_present (serverName : String) (tools : List MTool)
    (m : List (String × MNamespacedTool)) (acc : List MNamespacedTool)
    {t : MTool} (ht : t ∈ tools) :
    (mapGet (tools.foldl (updateToolMapsStep serverName) (m, acc)).1
      (createNamespacedName serverName t.name)).isSome = true := by
  induction tools generalizing m acc with
  | nil => cases ht
  | cons t2 ts ih =>
      simp only [List.foldl_cons]
      rw [updateToolMapsStep]
      rcases List.mem_cons.mp ht with rfl | hmem
      · refine toolFold_get_isSome_mono _ _ _ _ _ ?_
        have hkey : (mkNamespacedTool serverName t).namespaced_tool_name
            = createNamespacedName serverName t.name := rfl
        rw [hkey.symm, mapGet_set_self]
        rfl
      · exact ih _ _ hmem

theorem toolFold_get_untouched (serverName : String) (tools : List MTool)
    (m : List (String × MNamespacedTool)) (acc : List MNamespacedTool)
    (key : String)
    (h : ∀ t ∈ tools, createNamespacedName serverName t.name ≠ key) :
    mapGet (tools.foldl (updateToolMapsStep serverName) (m, acc)).1 key
      = mapGet m key := by
  induction tools generalizing m acc with
  | nil => rfl
  | cons t ts ih =>
      simp only [List.foldl_cons]
      rw [updateToolMapsStep]
      rw [ih _ _ (fun t2 ht2 => h t2 (List.mem_cons_of_mem t ht2))]
      exact mapGet_set_ne _ _ _ _
        (fun hk => h t (List.mem_cons.mpr (Or.inl rfl)) hk.symm)

theorem updateToolMaps_toolMap (st : AggState) (serverName : String)
    (tools : List MTool) :
    (updateToolMaps st serverName tools).namespacedToolMap
      = (tools.foldl (updateToolMapsStep serverName) (st.namespacedToolMap, [])).1 := rfl

theorem updateToolMaps_serverMap (st : AggState) (serverName : String)
    (tools : List MTool) :
    (updateToolMaps st serverName tools).serverToToolMap
      = mapSet st.serverToToolMap serverName
          (tools.map (mkNamespacedTool serverName)) := by
  rw [updateToolMaps]
  simp only
  rw [toolFold_scratch]
  simp

theorem updateToolMaps_frame (st : AggState) (serverName : String)
    (tools : List MTool) :
    (updateToolMaps st serverName tools).initialized = st.initialized ∧
    (updateToolMaps st serverName tools).connectionPersistence = st.connectionPersistence ∧
    (updateToolMaps st serverName tools).serverNames = st.serverNames := ⟨rfl, rfl, rfl⟩

theorem loadOne_toolMap (listing : String → ServerListing) (st : AggState)
    (serverName : String) :
    (loadServerCapabilities listing st serverName).namespacedToolMap
      = (updateToolMaps st serverName (listing serverName).tools).namespacedToolMap := rfl

theorem loadAll_get_inv (listing : String → ServerListing) (names : List String)
    (st : AggState) {key : String} {nt : MNamespacedTool}
    (h : mapGet (names.foldl (loadServerCapabilities listing) st).namespacedToolMap key
      = some nt) :
    (∃ s ∈ names, ∃ t ∈ (listing s).tools, nt = mkNamespacedTool s t ∧
      key = createNamespacedName s t.name) ∨
      mapGet st.namespacedToolMap key = some nt := by
  induction names generalizing st with
  | nil => exact Or.inr h
  | cons s names ih =>
      simp only [List.foldl_cons] at h
      rcases ih _ h with ⟨s2, hs2, t2, ht2, h1, h2⟩ | h2
      · exact Or.inl ⟨s2, List.mem_cons_of_mem s hs2, t2, ht2, h1, h2⟩
      · rw [loadOne_toolMap, updateToolMaps_toolMap] at h2
        rcases toolFold_get_inv _ _ _ _ h2 with ⟨t, ht, h1, h3⟩ | h3
        · exact Or.inl ⟨s, List.mem_cons.mpr (Or.inl rfl), t, ht, h1, h3⟩
        · exact Or.inr h3

theorem loadAll_get_isSome_mono (listing : String → ServerListing)
    (names : List String) (st : AggState) (key : String)
    (h : (mapGet st.namespacedToolMap key).isSome = true) :
    (mapGet (names.foldl (loadServerCapabilities listing) st).namespacedToolMap
      key).isSome = true := by
  induction names generalizing st with
  | nil => exact h
  | cons s names ih =>
      simp only [List.foldl_cons]
      refine ih _ ?_
      rw [loadOne_toolMap, updateToolMaps_toolMap]
      exact toolFold_get_isSome_mono _ _ _ _ _ h

theorem loadAll_get_present (listing : String → ServerListing)
    (names : List String) (st : AggState) {s : String} {t : MTool}
    (hs : s ∈ names) (ht : t ∈ (listing s).tools) :
    (mapGet (names.foldl (loadServerCapabilities listing) st).namespacedToolMap
      (createNamespacedName s t.name)).isSome = true := by
  induction names generalizing st with
  | nil => cases hs
  | cons s2 names ih =>
      simp only [List.foldl_cons]
      rcases List.mem_cons.mp hs with rfl | hmem
      · refine loadAll_get_isSome_mono _ _ _ _ ?_
        rw [loadOne_toolMap, updateToolMaps_toolMap]
        exact toolFold_get_present _ _ _ _ ht
      · exact ih _ hmem

theorem loadAll_frame (listing : String → ServerListing) (names : List String)
    (st : AggState) :
    (names.foldl (loadServerCapabilities listing) st).initialized = st.initialized ∧
    (names.foldl (loadServerCapabilities listing) st).connectionPersistence
      = st.connectionPersistence ∧
    (names.foldl (loadServerCapabilities listing) st).serverNames = st.serverNames := by
  induction names generalizing st with
  | nil => exact ⟨rfl, rfl, rfl⟩
  | cons s names ih =>
      simp only [List.foldl_cons]
      exact ih _

/-! ## Claim C1: namespaced routing of callTool -/

/-- C1 (amended): for a tool `T` of a configured server `S` whose
namespaced identifier "S_T" is produced by no other loaded (server, tool)
pair, after a successful initialize the aggregator invokes the session of
`S` through the managed connection of `S` with the original name `T` and
the arguments object forwarded unmodified, and leaves its own state
unchanged. The uniqueness hypothesis is forced by the collision
counterexample (`C1_counterexample`); the source namespaces with a plain
separator, so two servers can produce the same namespaced identifier. -/
theorem C1_callTool_routing {α : Type} (serverNames : List String)
    (listing : String → ServerListing) (S : String) (T : MTool) (args : α)
    (hS : S ∈ serverNames) (hT : T ∈ (listing S).tools)
    (huniq : ∀ S2 ∈ serverNames, ∀ T2 ∈ (listing S2).tools,
      createNamespacedName S2 T2.name = createNamespacedName S T.name →
        S2 = S ∧ T2.name = T.name) :
    callTool (initializeAggregator (freshAggregator serverNames true none) listing false)
        (createNamespacedName S T.name) args
      = (.invoked S T.name args true,
         initializeAggregator (freshAggregator serverNames true none) listing false,
         [.getManagedConnection S, .sessionCallTool S T.name]) := by
  have hstdef : initializeAggregator (freshAggregator serverNames true none) listing false
      = { loadServers listing (freshAggregator serverNames true none) with
          initialized := true } := by
    rw [initializeAggregator]
    simp [freshAggregator]
  have hloaddef : loadServers listing (freshAggregator serverNames true none)
      = serverNames.foldl (loadServerCapabilities listing)
          (freshAggregator serverNames true none) := rfl
  obtain ⟨nt, hnt⟩ := Option.isSome_iff_exists.mp
    (loadAll_get_present listing serverNames (freshAggregator serverNames true none) hS hT)
  have hprov := loadAll_get_inv listing serverNames
    (freshAggregator serverNames true none) hnt
  rcases hprov with ⟨s2, hs2, t2, ht2, hnt2, hkey⟩ | hbase
  · obtain ⟨hs2S, ht2T⟩ := huniq s2 hs2 t2 ht2 hkey.symm
    have hserver : nt.server_name = S := by rw [hnt2, mkNamespacedTool]; exact hs2S
    have horig : nt.original_name = T.name := by rw [hnt2, mkNamespacedTool]; exact ht2T
    have hpers : (loadServers listing (freshAggregator serverNames true none)).connectionPersistence
        = true := by
      rw [hloaddef]
      exact (loadAll_frame listing serverNames (freshAggregator serverNames true none)).2.1
    have hget : mapGet (loadServers listing (freshAggregator serverNames true none)).namespacedToolMap
        (createNamespacedName S T.name) = some nt := by
      rw [hloaddef]
      exact hnt
    rw [hstdef, callTool]
    simp only [hget, hpers, hserver, horig, if_true]
  · simp [freshAggregator, mapGet] at hbase

/-- C1 counterexample: the claim as stated fails on a namespaced-name
collision. Server "a_b" is configured and exposes tool "c"; after a
successful initialize, the claim requires callTool "a_b_c" to invoke the
session of "a_b" with name "c", but the entry of server "a" (tool "b_c",
loaded later) overwrote the shared map slot and the call goes to server
"a" with name "b_c" instead. -/
theorem C1_counterexample :
    collisionAggregator.initialized = true
    ∧ "a_b" ∈ collisionAggregator.serverNames
    ∧ (⟨"c", "", ""⟩ : MTool) ∈ (collisionListing "a_b").tools
    ∧ createNamespacedName "a_b" "c" = "a_b_c"
    ∧ (callTool collisionAggregator "a_b_c" "args").1
        = CallOutcome.invoked "a" "b_c" "args" true
    ∧ (callTool collisionAggregator "a_b_c" "args").1
        ≠ CallOutcome.invoked "a_b" "c" "args" true := by
  refine ⟨rfl, ?_, ?_, rfl, rfl, ?_⟩
  · decide
  · decide
  · decide

/-- C1 witness: the amended routing theorem applied to one server "srv"
exposing one tool "add": callTool "srv_add" forwards name "add" and the
arguments unchanged to server "srv". -/
theorem C1_witness :
    callTool (initializeAggregator (freshAggregator ["srv"] true none)
        (fun _ => ⟨[⟨"add", "", ""⟩], [], []⟩) false)
        (createNamespacedName "srv" "add") "payload"
      = (.invoked "srv" "add" "payload" true,
         initializeAggregator (freshAggregator ["srv"] true none)
           (fun _ => ⟨[⟨"add", "", ""⟩], [], []⟩) false,
         [.getManagedConnection "srv", .sessionCallTool "srv" "add"]) := by
  refine C1_callTool_routing ["srv"] (fun _ => ⟨[⟨"add", "", ""⟩], [], []⟩)
    "srv" ⟨"add", "", ""⟩ "payload" ?_ ?_ ?_
  · decide
  · decide
  · intro S2 hS2 T2 hT2 hkey
    have h1 : S2 = "srv" := List.mem_singleton.mp hS2
    have h2 : T2 = ⟨"add", "", ""⟩ := List.mem_singleton.mp hT2
    exact ⟨h1, by rw [h2]⟩

/-! ## Claim C2: unknown namespaced identifier -/

/-- C2: on an initialized aggregator, callTool with a name absent from
the namespaced tool map throws a ValidationError, performs no connection
or transport or session action (the trace is empty), and leaves the
aggregator state unchanged. -/
theorem C2_unknown_tool {α : Type} (st : AggState) (name : String) (args : α)
    (hinit : st.initialized = true)
    (hmiss : mapGet st.namespacedToolMap name = none) :
    callTool st name args
      = (.validationFailure ("Tool '" ++ name ++ "' not found"), st, []) := by
  rw [callTool]
  simp [hinit, hmiss]

/-- C2 witness: a lookup of "nope" on the initialized collision
aggregator. -/
theorem C2_witness :
    callTool collisionAggregator "nope" "args"
      = (.validationFailure "Tool 'nope' not found", collisionAggregator, []) :=
  C2_unknown_tool collisionAggregator "nope" "args" (by decide) (by decide)

/-! ## Claim C9: wholesale rebuild of the namespaced maps -/

/-- C9 counterexample: reloading server "s" with tool "a" after a first
load that reported tool "b" leaves the stale entry "s_b" in the shared
namespaced map, although "b" was not re-reported — contradicting the
claim that no entry from the previous load remains. The per-server list,
in contrast, is swapped wholesale. -/
theorem C9_counterexample :
    (mapGet (updateToolMaps (updateToolMaps (freshAggregator ["s"] true none) "s"
        [⟨"b", "", ""⟩]) "s" [⟨"a", "", ""⟩]).namespacedToolMap "s_b").isSome = true
    ∧ mapGet (updateToolMaps (updateToolMaps (freshAggregator ["s"] true none) "s"
        [⟨"b", "", ""⟩]) "s" [⟨"a", "", ""⟩]).serverToToolMap "s"
      = some [mkNamespacedTool "s" ⟨"a", "", ""⟩] := by
  constructor
  · decide
  · decide

/-- C9 (amended): an `updateToolMaps` call builds the full namespaced
list in a local scratch structure and swaps it into the per-server map as
a single step (and the loop is synchronous, so readers never observe a
half-populated server); every reported tool ends up in the shared map;
shared-map keys the load does not produce are left untouched — so
entries of a previous load survive unless overwritten by a re-reported
name, and are only cleared on close. -/
theorem C9_rebuild_amended (st : AggState) (serverName : String)
    (tools : List MTool) :
    (updateToolMaps st serverName tools).serverToToolMap
      = mapSet st.serverToToolMap serverName (tools.map (mkNamespacedTool serverName))
    ∧ (∀ key, (∀ t ∈ tools, createNamespacedName serverName t.name ≠ key) →
        mapGet (updateToolMaps st serverName tools).namespacedToolMap key
          = mapGet st.namespacedToolMap key)
    ∧ (∀ key nt,
        mapGet (updateToolMaps st serverName tools).namespacedToolMap key = some nt →
        (∃ t ∈ tools, nt = mkNamespacedTool serverName t ∧
          key = createNamespacedName serverName t.name)
          ∨ mapGet st.namespacedToolMap key = some nt)
    ∧ (∀ t ∈ tools,
        (mapGet (updateToolMaps st serverName tools).namespacedToolMap
          (createNamespacedName serverName t.name)).isSome = true) := by
  refine ⟨updateToolMaps_serverMap st serverName tools, ?_, ?_, ?_⟩
  · intro key hkey
    rw [updateToolMaps_toolMap]
    exact toolFold_get_untouched serverName tools _ _ key hkey
  · intro key nt h
    rw [updateToolMaps_toolMap] at h
    exact toolFold_get_inv serverName tools _ _ h
  · intro t ht
    rw [updateToolMaps_toolMap]
    exact toolFold_get_present serverName tools _ _ ht

/-- C9 witness: the amended theorem applied to the reload of the
counterexample — the untouched-key clause evaluated at the key "zzz". -/
theorem C9_witness :
    mapGet (updateToolMaps (freshAggregator ["s"] true none) "s"
        [⟨"a", "", ""⟩]).namespacedToolMap "zzz"
      = mapGet (freshAggregator ["s"] true none).namespacedToolMap "zzz" :=
  (C9_rebuild_amended (freshAggregator ["s"] true none) "s" [⟨"a", "", ""⟩]).2.1
    "zzz" (by decide)

/-! ## Claim C10: getCapabilities needs no initialization -/

/-- C10: `getCapabilities` is a total function of the current state — a
snapshot of exactly the namespaced maps plus the configured server names
— with no initialization check and no failure path; on a freshly
constructed aggregator and after `close` it reports empty tools, prompts
and resources with the server names still listed, while `listTools`,
`listPrompts` and `listResources` throw in those states. -/
theorem C10_getCapabilities (st : AggState) (serverNames : List String)
    (persistence : Bool) (agentName : Option String) :
    getCapabilities st
      = { tools := mapValues st.namespacedToolMap
          prompts := mapValues st.namespacedPromptMap
          resources := mapValues st.namespacedResourceMap
          servers := st.serverNames }
    ∧ getCapabilities (freshAggregator serverNames persistence agentName)
      = { tools := [], prompts := [], resources := [], servers := serverNames }
    ∧ getCapabilities (closeAggregator st)
      = { tools := [], prompts := [], resources := [], servers := st.serverNames }
    ∧ listTools (freshAggregator serverNames persistence agentName)
      = .error notInitializedAggError
    ∧ listPrompts (freshAggregator serverNames persistence agentName)
      = .error notInitializedAggError
    ∧ listResources (freshAggregator serverNames persistence agentName)
      = .error notInitializedAggError
    ∧ listTools (closeAggregator st) = .error notInitializedAggError
    ∧ listPrompts (closeAggregator st) = .error notInitializedAggError
    ∧ listResources (closeAggregator st) = .error notInitializedAggError :=
  ⟨rfl, rfl, rfl, rfl, rfl, rfl, rfl, rfl, rfl⟩

/-! ## Claim C6: register validation -/

/-- C6 counterexample: an unsupported transport value fails with a
ValidationError (the `default` arm of `validateConfig`), not with the
ConfigurationError the claim requires. -/
theorem C6_counterexample :
    register emptyRegistry "s"
        { name := "", command := none, args := [], env := [],
          url := none, transport := some "tcp" }
      = .error (.validationError "Invalid transport type 'tcp' for server 's'")
    ∧ isConfigurationError
        (.validationError "Invalid transport type 'tcp' for server 's'") = false := by
  constructor
  · rfl
  · rfl

/-- C6 (amended): `register` defaults a missing transport to stdio and
stores the configuration under the name on success; it fails with a
ConfigurationError on a duplicate name, and with a ValidationError on an
empty name, on a missing transport-required field (command for stdio,
url for http and websocket) and — contrary to the claim as stated, see
`C6_counterexample` — on an unsupported transport value. -/
theorem C6_register_amended :
    (∀ reg cfg, register reg "" cfg
      = .error (.validationError "Server name is required"))
    ∧ (∀ reg name cfg, ¬name = "" → mapHas reg.servers name = true →
        register reg name cfg
          = .error (.configurationError
              ("Server '" ++ name ++ "' is already registered")))
    ∧ (∀ reg name cfg, ¬name = "" → mapHas reg.servers name = false →
        strTruthy cfg.transport = false → strTruthy cfg.command = true →
        register reg name cfg
          = .ok { reg with servers := mapSet reg.servers name ({ cfg with transport := some "stdio", name := name }) })
    ∧ (∀ reg name cfg, ¬name = "" → mapHas reg.servers name = false →
        cfg.transport = some "stdio" → strTruthy cfg.command = false →
        register reg name cfg
          = .error (.validationError
              ("Server '" ++ name ++ "' with stdio transport requires 'command'")))
    ∧ (∀ reg name cfg, ¬name = "" → mapHas reg.servers name = false →
        cfg.transport = some "websocket" → strTruthy cfg.url = false →
        register reg name cfg
          = .error (.validationError
              ("Server '" ++ name ++ "' with websocket transport requires 'url'")))
    ∧ (∀ reg name cfg, ¬name = "" → mapHas reg.servers name = false →
        cfg.transport = some "http" → strTruthy cfg.url = false →
        register reg name cfg
          = .error (.validationError
              ("Server '" ++ name ++ "' with http transport requires 'url'")))
    ∧ (∀ reg name cfg t, ¬name = "" → mapHas reg.servers name = false →
        cfg.transport = some t → ¬t = "" → ¬t = "stdio" → ¬t = "http" →
        ¬t = "websocket" →
        register reg name cfg
          = .error (.validationError
              ("Invalid transport type '" ++ t ++ "' for server '" ++ name ++ "'")))
    ∧ (∀ reg name cfg reg2, register reg name cfg = .ok reg2 →
        ∃ cfg2, mapGet reg2.servers name = some cfg2 ∧ cfg2.name = name) := by
  refine ⟨?_, ?_, ?_, ?_, ?_, ?_, ?_, ?_⟩
  · intro reg cfg
    rw [register]
    simp
  · intro reg name cfg hn hh
    rw [register]
    simp [hn, hh]
  · intro reg name cfg hn hh htr hcmd
    simp [register, validateConfig, hn, hh, htr, hcmd]
  · intro reg name cfg hn hh htr hcmd
    have hst : strTruthy (some "stdio") = true := rfl
    simp [register, validateConfig, hn, hh, htr, hcmd, hst]
  · intro reg name cfg hn hh htr hurl
    have hst : strTruthy (some "websocket") = true := rfl
    simp [register, validateConfig, hn, hh, htr, hurl, hst, String.append_assoc]
  · intro reg name cfg hn hh htr hurl
    have hst : strTruthy (some "http") = true := rfl
    simp [register, validateConfig, hn, hh, htr, hurl, hst, String.append_assoc]
  · intro reg name cfg t hn hh htr ht0 ht1 ht2 ht3
    have h0 : strTruthy (some t) = true := by
      rw [strTruthy]
      cases h : (t == "") with
      | false => rfl
      | true => exact absurd (by simpa using h) ht0
    simp [register, validateConfig, hn, hh, htr, h0, ht1, ht2, ht3]
  · intro reg name cfg reg2 h
    rw [register] at h
    by_cases hn : name = ""
    · simp [hn] at h
    · by_cases hh : mapHas reg.servers name
      · simp [hn, hh] at h
      · rcases hv : validateConfig name cfg with e | cfg2
        · simp [hn, hh, hv] at h
        · rw [if_neg hn, if_neg (by simpa using hh), hv] at h
          obtain rfl := Except.ok.inj h
          exact ⟨({ cfg2 with name := name }), mapGet_set_self _ _ _, rfl⟩

/-- C6 witness: the duplicate-name clause of the amended theorem at the
demo registry. -/
theorem C6_witness :
    register demoRegistry "s" demoConfig
      = .error (.configurationError "Server 's' is already registered") :=
  C6_register_amended.2.1 demoRegistry "s" demoConfig (by decide) (by decide)

/-! ## Lemmas about the connection manager -/

theorem mapSet_set_same {α : Type} (m : List (String × α)) (k : String) (v w : α) :
    mapSet (mapSet m k v) k w = mapSet m k w := by
  induction m with
  | nil => simp [mapSet]
  | cons p rest ih =>
      obtain ⟨a, b⟩ := p
      by_cases h : a = k
      · simp [mapSet, h]
      · simp [mapSet, h, ih]

theorem mapDelete_set_same {α : Type} (m : List (String × α)) (k : String) (v : α) :
    mapDelete (mapSet m k v) k = mapDelete m k := by
  induction m with
  | nil => simp [mapSet, mapDelete]
  | cons p rest ih =>
      obtain ⟨a, b⟩ := p
      by_cases h : a = k
      · simp [mapSet, mapDelete, h]
      · simpa [mapSet, mapDelete, h] using ih

/-- One `getConnection` whose connect attempt rejects, from a state whose
entry for `name` is missing or unhealthy: the caller gets a
`ConnectionError` naming the server; the retry count moves from `rc` to
`rc + 1`; once it reaches `maxRetries` the cached state is evicted,
otherwise the failed state stays cached. -/
theorem connectFail_step (cm : CMState) (name : String) (config : MServerConfig)
    (tr : MTransport) (msg : String) (rc : Nat)
    (hinit : cm.initialized = true)
    (hcfg : registryGet cm.registry name = some config)
    (htr : createTransport config = .ok tr)
    (hstate : (mapGet cm.connections name = none ∧ rc = 0) ∨
      ∃ st, mapGet cm.connections name = some st ∧ isConnectionHealthy st = false ∧
        st.retryCount = rc) :
    (getConnection cm name (.fail msg)).1
        = .error (.connectionError
            ("Failed to connect to server '" ++ name ++ "': "
              ++ errString (.genericError msg)) name) ∧
      (getConnection cm name (.fail msg)).2.initialized = true ∧
      (getConnection cm name (.fail msg)).2.registry = cm.registry ∧
      (getConnection cm name (.fail msg)).2.maxRetries = cm.maxRetries ∧
      (getConnection cm name (.fail msg)).2.connectionTimeout = cm.connectionTimeout ∧
      (getConnection cm name (.fail msg)).2.connectAttempts = cm.connectAttempts + 1 ∧
      (cm.maxRetries ≤ rc + 1 →
        mapGet (getConnection cm name (.fail msg)).2.connections name = none) ∧
      (rc + 1 < cm.maxRetries →
        mapGet (getConnection cm name (.fail msg)).2.connections name
          = some (failedState name config tr (.genericError msg)
              cm.nextConnId cm.clock (rc + 1))) := by
  rcases hstate with ⟨hnone, hrc⟩ | ⟨st, hst, hunh, hrc⟩
  · subst hrc
    by_cases hm : cm.maxRetries ≤ 0 + 1
    · have hm2 : ¬(0 + 1 < cm.maxRetries) := by omega
      simp [getConnection, getConnectionCreate, createConnection, createConnectionMain,
        createConnectionSetup, initializeConnectionRun, connectCaps, connectFailure, withTimeout,
        createConnectionFinish, clearInFlight, mapGet_set_self, mapSet_set_same,
        mapDelete_set_same, hinit, hcfg, htr, hnone, hm, hm2, mapGet_delete_self,
        failedState]
    · have hm2 : 0 + 1 < cm.maxRetries := by omega
      simp [getConnection, getConnectionCreate, createConnection, createConnectionMain,
        createConnectionSetup, initializeConnectionRun, connectCaps, connectFailure, withTimeout,
        createConnectionFinish, clearInFlight, mapGet_set_self, mapSet_set_same,
        mapDelete_set_same, hinit, hcfg, htr, hnone, hm, hm2, failedState]
  · subst hrc
    by_cases hm : cm.maxRetries ≤ st.retryCount + 1
    · have hm2 : ¬(st.retryCount + 1 < cm.maxRetries) := by omega
      simp [getConnection, getConnectionCreate, createConnection, createConnectionMain,
        createConnectionSetup, initializeConnectionRun, connectCaps, connectFailure, withTimeout,
        createConnectionFinish, clearInFlight, mapGet_set_self, mapSet_set_same,
        mapDelete_set_same, hinit, hcfg, htr, hst, hunh, hm, hm2, mapGet_delete_self,
        failedState]
    · have hm2 : st.retryCount + 1 < cm.maxRetries := by omega
      simp [getConnection, getConnectionCreate, createConnection, createConnectionMain,
        createConnectionSetup, initializeConnectionRun, connectCaps, connectFailure, withTimeout,
        createConnectionFinish, clearInFlight, mapGet_set_self, mapSet_set_same,
        mapDelete_set_same, hinit, hcfg, htr, hst, hunh, hm, hm2, failedState]

/-- One `getConnection` whose connect attempt succeeds, from a state
whose entry for `name` is missing or unhealthy: the caller gets the
fresh connection, and the cached state is healthy with its retry count
reset to zero. -/
theorem connectOk_step (cm : CMState) (name : String) (config : MServerConfig)
    (tr : MTransport) (caps : Option MServerCapabilities)
    (hinit : cm.initialized = true)
    (hcfg : registryGet cm.registry name = some config)
    (htr : createTransport config = .ok tr)
    (hstate : mapGet cm.connections name = none ∨
      ∃ st, mapGet cm.connections name = some st ∧ isConnectionHealthy st = false) :
    (getConnection cm name (.ok caps)).1
        = .ok (connectedState name config tr caps cm.nextConnId cm.clock).connection ∧
      (getConnection cm name (.ok caps)).2.initialized = true ∧
      (getConnection cm name (.ok caps)).2.registry.servers = cm.registry.servers ∧
      (getConnection cm name (.ok caps)).2.maxRetries = cm.maxRetries ∧
      (getConnection cm name (.ok caps)).2.connectAttempts = cm.connectAttempts + 1 ∧
      mapGet (getConnection cm name (.ok caps)).2.connections name
        = some (connectedState name config tr caps cm.nextConnId cm.clock) := by
  rcases hstate with hnone | ⟨st, hst, hunh⟩
  · simp [getConnection, getConnectionCreate, createConnection, createConnectionMain,
      createConnectionSetup, initializeConnectionRun, connectCaps, withTimeout,
      createConnectionFinish, clearInFlight, mapGet_set_self, mapSet_set_same,
      hinit, hcfg, htr, hnone, connectedState]
  · simp [getConnection, getConnectionCreate, createConnection, createConnectionMain,
      createConnectionSetup, initializeConnectionRun, connectCaps, withTimeout,
      createConnectionFinish, clearInFlight, mapGet_set_self, mapSet_set_same,
      hinit, hcfg, htr, hst, hunh, connectedState]

/-- One `getConnection` whose connect attempt outlives the timeout, from
a state with no entry for `name`: the timer rejects with a `TimeoutError`
tagged with the configured timeout; the caller receives it rewrapped as a
`ConnectionError` tagged with the server name; the `TimeoutError` itself
is what gets stored on the connection state. -/
theorem connectTimeout_step (cm : CMState) (name : String) (config : MServerConfig)
    (tr : MTransport)
    (hinit : cm.initialized = true)
    (hcfg : registryGet cm.registry name = some config)
    (htr : createTransport config = .ok tr)
    (hnone : mapGet cm.connections name = none)
    (hm : 0 + 1 < cm.maxRetries) :
    (getConnection cm name .timeout).1
        = .error (.connectionError
            ("Failed to connect to server '" ++ name ++ "': "
              ++ errString (.timeoutError
                ("Connection to server '" ++ name ++ "' timed out")
                cm.connectionTimeout)) name) ∧
      mapGet (getConnection cm name .timeout).2.connections name
        = some (failedState name config tr
            (.timeoutError ("Connection to server '" ++ name ++ "' timed out")
              cm.connectionTimeout)
            cm.nextConnId cm.clock 1) := by
  have hm2 : ¬(cm.maxRetries ≤ 0 + 1) := by omega
  simp [getConnection, getConnectionCreate, createConnection, createConnectionMain,
    createConnectionSetup, initializeConnectionRun, connectCaps, connectFailure, withTimeout,
    createConnectionFinish, clearInFlight, mapGet_set_self, mapSet_set_same,
    hinit, hcfg, htr, hnone, hm, hm2, failedState]

/-! ## Claim C7: connect timeout -/

/-- C7 counterexample: when the connect to "s" outlives the timeout, the
`getConnection` caller does not receive a TimeoutError: the error is a
ConnectionError (tagged with the server name) whose message merely embeds
the timeout error. -/
theorem C7_counterexample :
    (getConnection demoManager "s" .timeout).1
      = .error (.connectionError
          "Failed to connect to server 's': TimeoutError: Connection to server 's' timed out"
          "s")
    ∧ isTimeoutError
        (.connectionError
          "Failed to connect to server 's': TimeoutError: Connection to server 's' timed out"
          "s") = false :=
  ⟨rfl, rfl⟩

/-- C7 (amended): the timed-out connect race does raise a TimeoutError
tagged with the configured timeout value, and that error is stored on the
connection state — but `initializeConnection` catches it and rewraps it,
so the `getConnection` caller receives a ConnectionError tagged with the
server name whose message embeds the timeout error. -/
theorem C7_timeout_wrapping (cm : CMState) (name : String)
    (config : MServerConfig) (tr : MTransport)
    (hinit : cm.initialized = true)
    (hcfg : registryGet cm.registry name = some config)
    (htr : createTransport config = .ok tr)
    (hnone : mapGet cm.connections name = none)
    (hm : 0 + 1 < cm.maxRetries) :
    (∀ msg t, withTimeout .timeout t msg = .error (.timeoutError msg t))
    ∧ (getConnection cm name .timeout).1
        = .error (.connectionError
            ("Failed to connect to server '" ++ name ++ "': "
              ++ errString (.timeoutError
                ("Connection to server '" ++ name ++ "' timed out")
                cm.connectionTimeout)) name)
    ∧ (∃ st, mapGet (getConnection cm name .timeout).2.connections name = some st ∧
        st.error = some (.timeoutError
          ("Connection to server '" ++ name ++ "' timed out") cm.connectionTimeout)) := by
  obtain ⟨h1, h2⟩ := connectTimeout_step cm name config tr hinit hcfg htr hnone hm
  exact ⟨fun msg t => rfl, h1, ⟨_, h2, rfl⟩⟩

/-- C7 witness: the amended theorem on the demo manager, whose configured
connection timeout is the default 30000. -/
theorem C7_witness :
    (getConnection demoManager "s" .timeout).1
      = .error (.connectionError
          ("Failed to connect to server 's': "
            ++ errString (.timeoutError "Connection to server 's' timed out" 30000))
          "s") :=
  (C7_timeout_wrapping demoManager "s" demoConfig (.stdio "node" [] [])
    rfl rfl rfl rfl (by decide)).2.1

/-! ## Claim C3: retry exhaustion, eviction and reset -/

theorem failedAttempts_succ (cm : CMState) (name msg : String) (k : Nat) :
    failedAttempts cm name msg (k + 1)
      = (getConnection (failedAttempts cm name msg k) name (.fail msg)).2 := by
  induction k generalizing cm with
  | zero => rfl
  | succ k ih =>
      rw [show failedAttempts cm name msg (k + 1 + 1)
          = failedAttempts (getConnection cm name (.fail msg)).2 name msg (k + 1) from rfl]
      rw [ih]
      rfl

/-- The trajectory of consecutive failed attempts: the manager frame is
preserved; the entry for `name` is absent at the start and right after
the `maxRetries`-th failure, and in between holds the failed state with
the retry count equal to the number of failures so far. -/
theorem failedAttempts_invariant (cm : CMState) (name msg : String)
    (config : MServerConfig) (tr : MTransport)
    (hinit : cm.initialized = true)
    (hcfg : registryGet cm.registry name = some config)
    (htr : createTransport config = .ok tr)
    (hnone : mapGet cm.connections name = none) :
    ∀ k, k ≤ cm.maxRetries →
      ((failedAttempts cm name msg k).initialized = true ∧
        (failedAttempts cm name msg k).registry = cm.registry ∧
        (failedAttempts cm name msg k).maxRetries = cm.maxRetries ∧
        (failedAttempts cm name msg k).connectionTimeout = cm.connectionTimeout) ∧
      ((k = 0 ∨ k = cm.maxRetries) →
        mapGet (failedAttempts cm name msg k).connections name = none) ∧
      (1 ≤ k → k < cm.maxRetries →
        ∃ st, mapGet (failedAttempts cm name msg k).connections name = some st ∧
          st.retryCount = k ∧ isConnectionHealthy st = false) := by
  intro k
  induction k with
  | zero =>
      intro _
      exact ⟨⟨hinit, rfl, rfl, rfl⟩, fun _ => hnone, fun h1 _ => absurd h1 (by omega)⟩
  | succ k ih =>
      intro hk
      obtain ⟨⟨hI, hR, hM, hT⟩, hzero, hmid⟩ := ih (by omega)
      have hcfg2 : registryGet (failedAttempts cm name msg k).registry name
          = some config := by rw [hR]; exact hcfg
      have hstate : (mapGet (failedAttempts cm name msg k).connections name = none ∧
            k = 0) ∨
          ∃ st, mapGet (failedAttempts cm name msg k).connections name = some st ∧
            isConnectionHealthy st = false ∧ st.retryCount = k := by
        rcases Nat.eq_zero_or_pos k with rfl | hpos
        · exact Or.inl ⟨hzero (Or.inl rfl), rfl⟩
        · obtain ⟨st, hst, hrc, hunh⟩ := hmid hpos (by omega)
          exact Or.inr ⟨st, hst, hunh, hrc⟩
      obtain ⟨_, sI, sR, sM, sT, _, sEvict, sKeep⟩ :=
        connectFail_step (failedAttempts cm name msg k) name config tr msg k
          hI hcfg2 htr hstate
      rw [failedAttempts_succ cm name msg k] at *
      refine ⟨⟨sI, by rw [sR, hR], by rw [sM, hM], by rw [sT, hT]⟩, ?_, ?_⟩
      · intro hcase
        rcases hcase with h0 | hmax
        · omega
        · exact sEvict (by omega)
      · intro _ hlt
        obtain h := sKeep (by omega)
        exact ⟨_, h, rfl, rfl⟩

/-- C3: starting from no cached state, `maxRetries` consecutive failed
connect attempts evict the cached ConnectionState (and not earlier: after
`k < maxRetries` failures the state is still cached with retry count
`k`); the next `getConnection` starts from a fresh state whose retry
count begins at zero (observable as retry count 1 after one further
failure); and whenever a connect attempt succeeds, the stored retry count
is reset to zero on a healthy cached state. -/
theorem C3_retry_eviction_reset (cm : CMState) (name msg : String)
    (config : MServerConfig) (tr : MTransport)
    (hinit : cm.initialized = true)
    (hcfg : registryGet cm.registry name = some config)
    (htr : createTransport config = .ok tr)
    (hnone : mapGet cm.connections name = none) :
    (∀ k, 1 ≤ k → k < cm.maxRetries →
      ∃ st, mapGet (failedAttempts cm name msg k).connections name = some st ∧
        st.retryCount = k ∧ isConnectionHealthy st = false)
    ∧ mapGet (failedAttempts cm name msg cm.maxRetries).connections name = none
    ∧ (2 ≤ cm.maxRetries →
        ∃ st, mapGet (failedAttempts cm name msg (cm.maxRetries + 1)).connections name
            = some st ∧ st.retryCount = 1)
    ∧ (∀ k, k ≤ cm.maxRetries → ∀ caps,
        ∃ conn, (getConnection (failedAttempts cm name msg k) name (.ok caps)).1
            = .ok conn ∧
          ∃ st, mapGet (getConnection (failedAttempts cm name msg k) name
              (.ok caps)).2.connections name = some st ∧
            st.retryCount = 0 ∧ isConnectionHealthy st = true) := by
  have hInv := failedAttempts_invariant cm name msg config tr hinit hcfg htr hnone
  refine ⟨?_, ?_, ?_, ?_⟩
  · intro k h1 h2
    exact (hInv k (by omega)).2.2 h1 h2
  · exact (hInv cm.maxRetries (by omega)).2.1 (Or.inr rfl)
  · intro hm2
    obtain ⟨⟨hI, hR, hM, _⟩, hzero, _⟩ := hInv cm.maxRetries (by omega)
    have hcfg2 : registryGet (failedAttempts cm name msg cm.maxRetries).registry name
        = some config := by rw [hR]; exact hcfg
    obtain ⟨_, _, _, _, _, _, _, sKeep⟩ :=
      connectFail_step (failedAttempts cm name msg cm.maxRetries) name config tr msg 0
        hI hcfg2 htr (Or.inl ⟨hzero (Or.inr rfl), rfl⟩)
    rw [failedAttempts_succ cm name msg cm.maxRetries]
    exact ⟨_, sKeep (by omega), rfl⟩
  · intro k hk caps
    obtain ⟨⟨hI, hR, _, _⟩, hzero, hmid⟩ := hInv k hk
    have hcfg2 : registryGet (failedAttempts cm name msg k).registry name
        = some config := by rw [hR]; exact hcfg
    have hstate : mapGet (failedAttempts cm name msg k).connections name = none ∨
        ∃ st, mapGet (failedAttempts cm name msg k).connections name = some st ∧
          isConnectionHealthy st = false := by
      rcases Nat.eq_zero_or_pos k with rfl | hpos
      · exact Or.inl (hzero (Or.inl rfl))
      · rcases Nat.lt_or_ge k cm.maxRetries with hlt | hge
        · obtain ⟨st, hst, _, hunh⟩ := hmid hpos hlt
          exact Or.inr ⟨st, hst, hunh⟩
        · exact Or.inl (hzero (Or.inr (by omega)))
    obtain ⟨okEq, _, _, _, _, okGet⟩ :=
      connectOk_step (failedAttempts cm name msg k) name config tr caps
        hI hcfg2 htr hstate
    exact ⟨_, okEq, _, okGet, rfl, rfl⟩

/-- C3 witness: the demo manager (`maxRetries := 2`): after one failure
the state is cached with retry count 1; after two it is evicted; after a
third (post-eviction) failure the fresh state shows retry count 1; and a
success after exhaustion yields a healthy state with retry count 0. -/
theorem C3_witness :
    (∃ st, mapGet (failedAttempts demoManager "s" "boom" 1).connections "s" = some st ∧
      st.retryCount = 1 ∧ isConnectionHealthy st = false)
    ∧ mapGet (failedAttempts demoManager "s" "boom" 2).connections "s" = none
    ∧ (∃ st, mapGet (failedAttempts demoManager "s" "boom" 3).connections "s" = some st ∧
        st.retryCount = 1)
    ∧ (∃ conn, (getConnection (failedAttempts demoManager "s" "boom" 2) "s"
          (.ok none)).1 = .ok conn ∧
        ∃ st, mapGet (getConnection (failedAttempts demoManager "s" "boom" 2) "s"
            (.ok none)).2.connections "s" = some st ∧
          st.retryCount = 0 ∧ isConnectionHealthy st = true) := by
  obtain ⟨h1, h2, h3, h4⟩ :=
    C3_retry_eviction_reset demoManager "s" "boom" demoConfig (.stdio "node" [] [])
      rfl rfl rfl rfl
  refine ⟨h1 1 (by decide) (by decide), h2, ?_, h4 2 (by decide) none⟩
  have := h3 (by decide)
  exact this

/-! ## Claim C4: deduplication of concurrent getConnection calls -/

/-- C4: two `getConnection` calls for one server, the second issued
before the first connect resolves, always produce the same result for
both callers and perform exactly one connect attempt (one client and
transport creation, one `client.connect`); when the connect succeeds both
callers receive the same connection object. -/
theorem C4_concurrent_dedup (cm : CMState) (name : String)
    (config : MServerConfig) (tr : MTransport) (r r2 : ConnectOutcome)
    (hinit : cm.initialized = true)
    (hnone : mapGet cm.connections name = none)
    (hcfg : registryGet cm.registry name = some config)
    (htr : createTransport config = .ok tr) :
    (concurrentGetConnection cm name r r2).1
        = (concurrentGetConnection cm name r r2).2.1
    ∧ (concurrentGetConnection cm name r r2).2.2.connectAttempts
        = cm.connectAttempts + 1
    ∧ (∀ caps, r = .ok caps →
        ∃ c, (concurrentGetConnection cm name r r2).1 = .ok c ∧
          (concurrentGetConnection cm name r r2).2.1 = .ok c) := by
  rcases r with caps | msg | _
  · refine ⟨?_, ?_, ?_⟩ <;>
      simp [concurrentGetConnection, concurrentCreate, createConnectionSetup,
        initializeConnectionRun, connectCaps, withTimeout, createConnectionFinish, clearInFlight,
        mapGet_set_self, mapSet_set_same, hinit, hcfg, htr, hnone, isConnectionHealthy]
  · refine ⟨?_, ?_, ?_⟩ <;>
      simp [concurrentGetConnection, concurrentCreate, createConnectionSetup,
        initializeConnectionRun, connectCaps, withTimeout, connectFailure, createConnectionFinish,
        clearInFlight, mapGet_set_self, mapSet_set_same, mapDelete_set_same,
        hinit, hcfg, htr, hnone, apply_ite]
  · refine ⟨?_, ?_, ?_⟩ <;>
      simp [concurrentGetConnection, concurrentCreate, createConnectionSetup,
        initializeConnectionRun, connectCaps, withTimeout, connectFailure, createConnectionFinish,
        clearInFlight, mapGet_set_self, mapSet_set_same, mapDelete_set_same,
        hinit, hcfg, htr, hnone, apply_ite]

/-- C4 witness: the interleaved scenario on the demo manager with a
successful connect: both callers get the same connection object and
exactly one connect attempt is recorded. -/
theorem C4_witness :
    (concurrentGetConnection demoManager "s" (.ok none) (.fail "x")).1
        = (concurrentGetConnection demoManager "s" (.ok none) (.fail "x")).2.1
    ∧ (concurrentGetConnection demoManager "s" (.ok none) (.fail "x")).2.2.connectAttempts
        = demoManager.connectAttempts + 1
    ∧ (∃ c, (concurrentGetConnection demoManager "s" (.ok none) (.fail "x")).1 = .ok c ∧
        (concurrentGetConnection demoManager "s" (.ok none) (.fail "x")).2.1 = .ok c) := by
  obtain ⟨h1, h2, h3⟩ :=
    C4_concurrent_dedup demoManager "s" demoConfig (.stdio "node" [] [])
      (.ok none) (.fail "x") rfl rfl rfl rfl
  exact ⟨h1, h2, h3 none rfl⟩

/-! ## Claim C8: the health predicate and its uses -/

theorem wfList_mapSet {m : List (String × MConnectionState)}
    (h : ∀ p ∈ m, cmStateWellFormed p.2) {v : MConnectionState}
    (hv : cmStateWellFormed v) (k : String) :
    ∀ p ∈ mapSet m k v, cmStateWellFormed p.2 := by
  intro p hp
  rcases mem_mapSet hp with h2 | h2
  · exact h p h2
  · rw [h2]
    exact hv

theorem wfList_mapDelete {m : List (String × MConnectionState)}
    (h : ∀ p ∈ m, cmStateWellFormed p.2) (k : String) :
    ∀ p ∈ mapDelete m k, cmStateWellFormed p.2 :=
  fun p hp => h p (mem_mapDelete hp)

theorem cmInv_setup (cm : CMState) (name : String) (config : MServerConfig)
    (h : cmInv cm) : cmInv (createConnectionSetup cm name config) := by
  rw [createConnectionSetup]
  intro p hp
  exact wfList_mapSet h (by simp [cmStateWellFormed]) name p hp

theorem cmInv_run (cm : CMState) (name : String) (r : ConnectOutcome)
    (h : cmInv cm) : cmInv (initializeConnectionRun cm name r).2 := by
  rw [initializeConnectionRun]
  rcases hs : mapGet cm.connections name with _ | st
  · simp only [hs]
    exact h
  · simp only [hs]
    have hwf : cmStateWellFormed st := h _ (mapGet_mem hs)
    rcases htr : createTransport st.connection.config with e | tr
    · simp only [htr]
      rw [connectFailure]
      intro p hp
      refine wfList_mapSet h ?_ name p hp
      refine ⟨hwf.1, ?_⟩
      intro hc
      simp at hc
    · simp only [htr]
      have hwtr : cmStateWellFormed { st with transport := some tr } := by
        obtain ⟨h1, h2⟩ := hwf
        exact ⟨h1, fun hc => ⟨rfl, (h2 hc).2.1, (h2 hc).2.2⟩⟩
      have hmid : ∀ p ∈ mapSet cm.connections name { st with transport := some tr },
          cmStateWellFormed p.2 := wfList_mapSet h hwtr name
      rcases r with caps | msg | _
      · simp only [withTimeout]
        intro p hp
        refine wfList_mapSet hmid ?_ name p hp
        exact ⟨hwf.1, fun _ => ⟨rfl, rfl, rfl⟩⟩
      · simp only [withTimeout]
        rw [connectFailure]
        intro p hp
        refine wfList_mapSet hmid ?_ name p hp
        refine ⟨hwf.1, ?_⟩
        intro hc
        simp at hc
      · simp only [withTimeout]
        rw [connectFailure]
        intro p hp
        refine wfList_mapSet hmid ?_ name p hp
        refine ⟨hwf.1, ?_⟩
        intro hc
        simp at hc

theorem cmInv_clearInFlight (cm : CMState) (name : String) (h : cmInv cm) :
    cmInv (clearInFlight cm name) := by
  rw [clearInFlight]
  rcases hs : mapGet cm.connections name with _ | st
  · simp only [hs]
    exact h
  · simp only [hs]
    have hwf := h _ (mapGet_mem hs)
    intro p hp
    refine wfList_mapSet h ?_ name p hp
    exact ⟨hwf.1, hwf.2⟩

theorem cmInv_finish (cm : CMState) (name : String) (res : Except MCPError Unit)
    (h : cmInv cm) : cmInv (createConnectionFinish cm name res).2 := by
  have hcf : cmInv (clearInFlight cm name) := cmInv_clearInFlight cm name h
  rw [createConnectionFinish.eq_def]
  rcases res with e | u
  · rcases hs : mapGet (clearInFlight cm name).connections name with _ | st
    · simp only [hs]
      exact hcf
    · simp only [hs]
      by_cases hm : (clearInFlight cm name).maxRetries ≤ st.retryCount
      · simp only [hm, if_true]
        exact fun p hp => hcf p (mem_mapDelete hp)
      · simp only [hm, if_false]
        exact hcf
  · rcases hs : mapGet (clearInFlight cm name).connections name with _ | st <;>
      simp only [hs] <;> exact hcf

theorem cmInv_main (cm : CMState) (name : String) (config : MServerConfig)
    (r : ConnectOutcome) (h : cmInv cm) :
    cmInv (createConnectionMain cm name config r).2 := by
  rw [createConnectionMain]
  exact cmInv_finish _ _ _ (cmInv_run _ _ _ (cmInv_setup _ _ _ h))

/-- The manager state `getConnection` leaves behind is either untouched
or the result of a full `createConnectionMain` run. -/
theorem getConnection_state_cases (cm : CMState) (name : String)
    (r : ConnectOutcome) :
    (getConnection cm name r).2 = cm ∨
    ∃ config, (getConnection cm name r).2 = (createConnectionMain cm name config r).2 := by
  rw [getConnection]
  by_cases hi : cm.initialized = true
  · simp only [hi, if_true]
    rcases hs : mapGet cm.connections name with _ | st
    · simp only [hs]
      rw [getConnectionCreate]
      rcases hg : registryGet cm.registry name with _ | config
      · simp [hg]
      · simp only [hg]
        rw [createConnection]
        simp only [hs]
        exact Or.inr ⟨config, rfl⟩
    · simp only [hs]
      by_cases hh : isConnectionHealthy st = true
      · simp [hh]
      · have hh2 : isConnectionHealthy st = false := by
          cases h2 : isConnectionHealthy st
          · rfl
          · exact absurd h2 hh
        simp only [hh2, if_false]
        rw [getConnectionCreate]
        rcases hg : registryGet cm.registry name with _ | config
        · simp [hg]
        · simp only [hg]
          rw [createConnection]
          simp only [hs, hh2, Bool.and_false, if_false]
          exact Or.inr ⟨config, rfl⟩
  · have hi2 : cm.initialized = false := by
      cases h2 : cm.initialized
      · rfl
      · exact absurd h2 hi
    simp [hi2]

theorem cmInv_getConnection (cm : CMState) (name : String) (r : ConnectOutcome)
    (h : cmInv cm) : cmInv (getConnection cm name r).2 := by
  rcases getConnection_state_cases cm name r with he | ⟨config, he⟩
  · rw [he]
    exact h
  · rw [he]
    exact cmInv_main _ _ _ _ h

/-- The manager state the interleaved scenario leaves behind is either
untouched, that of caller A finishing alone, or A finishing followed by
an attempt of caller B. -/
theorem concurrent_state_cases (cm : CMState) (name : String)
    (r r2 : ConnectOutcome) :
    (concurrentGetConnection cm name r r2).2.2 = cm ∨
    (∃ config, (concurrentGetConnection cm name r r2).2.2
        = (createConnectionFinish
            (initializeConnectionRun (createConnectionSetup cm name config) name r).2
            name
            (initializeConnectionRun (createConnectionSetup cm name config) name r).1).2) ∨
    (∃ config, (concurrentGetConnection cm name r r2).2.2
        = (createConnectionMain
            (createConnectionFinish
              (initializeConnectionRun (createConnectionSetup cm name config) name r).2
              name
              (initializeConnectionRun (createConnectionSetup cm name config) name r).1).2
            name config r2).2) := by
  have hcc : (concurrentCreate cm name r r2).2.2 = cm ∨
      (∃ config, (concurrentCreate cm name r r2).2.2
          = (createConnectionFinish
              (initializeConnectionRun (createConnectionSetup cm name config) name r).2
              name
              (initializeConnectionRun (createConnectionSetup cm name config) name r).1).2) ∨
      (∃ config, (concurrentCreate cm name r r2).2.2
          = (createConnectionMain
              (createConnectionFinish
                (initializeConnectionRun (createConnectionSetup cm name config) name r).2
                name
                (initializeConnectionRun (createConnectionSetup cm name config) name r).1).2
              name config r2).2) := by
    rw [concurrentCreate]
    rcases hg : registryGet cm.registry name with _ | config
    · simp [hg]
    · simp only [hg]
      rcases hr : (initializeConnectionRun (createConnectionSetup cm name config) name r).1
          with e | u
      · simp only [hr]
        refine Or.inr (Or.inl ⟨config, ?_⟩)
        rw [hr]
      · simp only [hr]
        rcases hs : mapGet (createConnectionFinish
            (initializeConnectionRun (createConnectionSetup cm name config) name r).2
            name (Except.ok u)).2.connections name with _ | st
        · simp only [hs]
          refine Or.inr (Or.inr ⟨config, ?_⟩)
          rw [hr]
        · simp only [hs]
          by_cases hh : isConnectionHealthy st = true
          · simp only [hh, if_true]
            refine Or.inr (Or.inl ⟨config, ?_⟩)
            rw [hr]
          · have hh2 : isConnectionHealthy st = false := by
              cases h2 : isConnectionHealthy st
              · rfl
              · exact absurd h2 hh
            simp only [hh2, Bool.false_eq_true, if_false]
            refine Or.inr (Or.inr ⟨config, ?_⟩)
            rw [hr]
  rw [concurrentGetConnection]
  by_cases hi : cm.initialized = true
  · simp only [hi, if_true]
    rcases hs : mapGet cm.connections name with _ | st
    · simp only [hs]
      exact hcc
    · simp only [hs]
      by_cases hh : isConnectionHealthy st = true
      · simp [hh]
      · have hh2 : isConnectionHealthy st = false := by
          cases h2 : isConnectionHealthy st
          · rfl
          · exact absurd h2 hh
        simp only [hh2, if_false]
        exact hcc
  · have hi2 : cm.initialized = false := by
      cases h2 : cm.initialized
      · rfl
      · exact absurd h2 hi
    simp [hi2]

theorem cmInv_concurrent (cm : CMState) (name : String) (r r2 : ConnectOutcome)
    (h : cmInv cm) : cmInv (concurrentGetConnection cm name r r2).2.2 := by
  rcases concurrent_state_cases cm name r r2 with he | ⟨config, he⟩ | ⟨config, he⟩
  · rw [he]
    exact h
  · rw [he]
    exact cmInv_finish _ _ _ (cmInv_run _ _ _ (cmInv_setup _ _ _ h))
  · rw [he]
    exact cmInv_main _ _ _ _ (cmInv_finish _ _ _ (cmInv_run _ _ _ (cmInv_setup _ _ _ h)))
theorem reachable_cmInv {cm : CMState} (h : ReachableCM cm) : cmInv cm := by
  induction h with
  | mk registry options =>
      intro p hp
      simp [mkConnectionManager] at hp
  | startup _ ih =>
      rw [initializeManager]
      split
      · exact ih
      · exact ih
  | step name r _ ih => exact cmInv_getConnection _ _ _ ih
  | closeOne name _ ih =>
      rw [closeConnection]
      rcases hs : mapGet _ name with _ | st
      · exact ih
      · exact wfList_mapDelete ih name
  | closeAll _ ih =>
      rw [closeManager]
      split
      · exact ih
      · intro p hp
        simp at hp
  | race name r r2 _ ih => exact cmInv_concurrent _ _ _ _ ih

theorem clearInFlight_nextConnId (cm : CMState) (name : String) :
    (clearInFlight cm name).nextConnId = cm.nextConnId := by
  rw [clearInFlight]
  rcases hs : mapGet cm.connections name with _ | st <;> simp [hs]

theorem main_nextConnId (cm : CMState) (name : String) (config : MServerConfig)
    (r : ConnectOutcome) :
    (createConnectionMain cm name config r).2.nextConnId = cm.nextConnId + 1 := by
  have hrun : ∀ cm2 : CMState,
      (initializeConnectionRun cm2 name r).2.nextConnId = cm2.nextConnId := by
    intro cm2
    rw [initializeConnectionRun]
    rcases hs : mapGet cm2.connections name with _ | st
    · simp [hs]
    · rcases htr : createTransport st.connection.config with e | tr
      · simp [hs, htr, connectFailure]
      · rcases r with caps | msg | _ <;>
          simp [hs, htr, withTimeout, connectFailure, connectCaps]
  have hfin : ∀ (cm2 : CMState) (res : Except MCPError Unit),
      (createConnectionFinish cm2 name res).2.nextConnId = cm2.nextConnId := by
    intro cm2 res
    rw [createConnectionFinish.eq_def]
    rcases res with e | u
    · rcases hs : mapGet (clearInFlight cm2 name).connections name with _ | st
      · simp [hs, clearInFlight_nextConnId]
      · by_cases hm : (clearInFlight cm2 name).maxRetries ≤ st.retryCount <;>
          simp [hs, hm, clearInFlight_nextConnId]
    · rcases hs : mapGet (clearInFlight cm2 name).connections name with _ | st <;>
        simp [hs, clearInFlight_nextConnId]
  rw [createConnectionMain]
  rw [hfin, hrun]
  rfl

/-- C8: the classification of a tracked connection as healthy agrees with
the predicate of the specification on every reachable manager state
(`connected` flag set, no stored error, session and transport handles
non-null), and this predicate decides both whether `getConnection` hands
back the cached connection without touching it and which connections
`getActiveConnections` reports. -/
theorem C8_healthy_iff (cm : CMState) (h : ReachableCM cm) :
    (∀ p ∈ cm.connections, isConnectionHealthy p.2 = healthyPerSpec p.2)
    ∧ (∀ name st r, cm.initialized = true →
        mapGet cm.connections name = some st →
        (isConnectionHealthy st = true →
          getConnection cm name r = (.ok st.connection, cm))
        ∧ (isConnectionHealthy st = false →
          getConnection cm name r ≠ (.ok st.connection, cm)))
    ∧ getActiveConnections cm
        = (cm.connections.filter (fun p => isConnectionHealthy p.2)).map
            (fun p => p.2.connection) := by
  have hinv := reachable_cmInv h
  refine ⟨?_, ?_, rfl⟩
  · intro p hp
    obtain ⟨h1, h2⟩ := hinv p hp
    by_cases hc : p.2.connection.connected = true
    · obtain ⟨ht, hsess, herr⟩ := h2 hc
      simp [isConnectionHealthy, healthyPerSpec, hc, h1, ht, hsess, herr]
    · simp only [Bool.not_eq_true] at hc
      simp [isConnectionHealthy, healthyPerSpec, hc]
  · intro name st r hi hs
    constructor
    · intro hh
      rw [getConnection]
      simp only [hi, if_true, hs, hh, if_true]
    · intro hh heq
      have hred : getConnection cm name r = getConnectionCreate cm name r := by
        rw [getConnection]
        simp only [hi, if_true, hs, hh, Bool.false_eq_true, if_false]
      rw [hred] at heq
      rw [getConnectionCreate] at heq
      rcases hg : registryGet cm.registry name with _ | config
      · simp only [hg] at heq
        exact Except.noConfusion (congrArg Prod.fst heq)
      · simp only [hg] at heq
        rw [createConnection.eq_def] at heq
        simp only [hs, hh, Bool.and_false, Bool.false_eq_true, if_false] at heq
        have h2 := congrArg (fun q => q.2.nextConnId) heq
        simp only at h2
        rw [main_nextConnId] at h2
        omega

/-- C8 witness: on the reachable state holding one successfully connected
entry for "s", the code predicate agrees with the predicate of the
specification, and the healthy cached connection is returned as is even
by a call whose connect oracle would fail. -/
theorem C8_witness :
    isConnectionHealthy (connectedState "s" demoConfig (.stdio "node" [] []) none 0 0)
      = healthyPerSpec (connectedState "s" demoConfig (.stdio "node" [] []) none 0 0)
    ∧ getConnection (getConnection demoManager "s" (.ok none)).2 "s" (.fail "x")
      = (.ok (connectedState "s" demoConfig (.stdio "node" [] []) none 0 0).connection,
         (getConnection demoManager "s" (.ok none)).2) := by
  have h := C8_healthy_iff (getConnection demoManager "s" (.ok none)).2
    (ReachableCM.step "s" (.ok none)
      (ReachableCM.startup (ReachableCM.mk demoRegistry ⟨some 2, none, none, none⟩)))
  refine ⟨h.1 ("s", connectedState "s" demoConfig (.stdio "node" [] []) none 0 0) ?_, ?_⟩
  · decide
  · exact (h.2.1 "s" _ (.fail "x") (by decide) (by decide)).1 (by decide)

/-! ## Claim C5: reference-counted sharing of the manager -/

/-- C5: aggregators attached to one context share a single
ConnectionManager under a reference count: acquiring with a manager
already on the context reuses that instance and only bumps the count;
releasing while other aggregators remain open (count at least two) only
decrements the count, leaving the manager and all its connections
untouched; releasing the last reference (count one) tears the manager
down and removes it from the context. -/
theorem C5_refcounted_sharing :
    (∀ ctx registry mgr, ctx.manager = some mgr →
        acquireManager ctx registry = ({ ctx with refCount := ctx.refCount + 1 }, mgr))
    ∧ (∀ ctx registry, ctx.manager = none →
        acquireManager ctx registry
          = ({ ctx with
                refCount := ctx.refCount + 1
                manager := some (initializeManager (mkConnectionManager registry ⟨none, none, none, none⟩)) },
             initializeManager (mkConnectionManager registry ⟨none, none, none, none⟩)))
    ∧ (∀ ctx, 2 ≤ ctx.refCount →
        releaseManager ctx = { ctx with refCount := ctx.refCount - 1 })
    ∧ (∀ ctx, ctx.refCount = 1 →
        releaseManager ctx
          = { ctx with
                refCount := 0
                manager := none
                closedCount := ctx.closedCount + 1 }) := by
  refine ⟨?_, ?_, ?_, ?_⟩
  · intro ctx registry mgr hm
    rw [acquireManager]
    simp only [hm]
  · intro ctx registry hm
    rw [acquireManager]
    simp only [hm]
  · intro ctx h2
    rw [releaseManager]
    have : ¬(ctx.refCount - 1 ≤ 0) := by omega
    simp only [this, if_false]
  · intro ctx h1
    rw [releaseManager]
    have : ctx.refCount - 1 ≤ 0 := by omega
    simp only [this, if_true]
    rw [h1]
    rfl

/-- C5 witness: with two references on the context, one release keeps the
manager alive and merely decrements; the final release closes it and
removes it from the context. -/
theorem C5_witness :
    releaseManager ⟨2, some demoManager, 0⟩ = ⟨1, some demoManager, 0⟩
    ∧ releaseManager ⟨1, some demoManager, 0⟩ = ⟨0, none, 1⟩ := by
  obtain ⟨_, _, h3, h4⟩ := C5_refcounted_sharing
  constructor
  · rw [h3 ⟨2, some demoManager, 0⟩ (by norm_num)]
    rfl
  · rw [h4 ⟨1, some demoManager, 0⟩ rfl]

end McpAgent
